import Mathlib

/-!
Shallow embedding of the order-fulfillment and claim-resolution core of the
OmniValio backend (FastAPI + SQLAlchemy), translated from
`src/Backend/app/routers/customer/orders.py`, `src/Backend/app/routers/admin/orders.py`,
`src/Backend/app/routers/customer/claims.py`, `src/Backend/app/routers/admin/claims.py`,
`src/Backend/app/routers/claims.py` and `src/Backend/app/AI_Services/claim_processor.py`,
with the data model of `src/Backend/app/models.py`.

Modelling conventions:
* Monetary amounts and quantities (Python floats in the source) are exact
  rationals `ℚ`; the claims under study are about the arithmetic relations the
  code computes, not float rounding.
* Database rows are Lean structures, tables are lists; a freshly inserted row
  is prepended.  SQLAlchemy's `query(...).first()` returns one matching row;
  in the model it is `List.find?` over the table, and an in-place mutation of
  that row is `updateFirst` below.
* Primary keys produced by `uuid.uuid4()` or AUTOINCREMENT are modelled by a
  single fresh-id counter `State.nextId`; every id handed out is `≥` the
  counter value at the start of the request and the counter is bumped past it,
  which is exactly the uniqueness the source relies on.
* Timestamps, free-text `notes`/`description` columns, `Message` and
  `OrderTracking` rows, and file uploads are append-only data never consulted
  by any of the modelled control flow, and are omitted.
* A FastAPI handler that raises `HTTPException` never commits its session, so
  it leaves the store unchanged: handlers are `State → Except ApiError State`.
-/

namespace OmniValio

/-- `models.OrderStatus`. -/
inductive OrderStatus
  | placed | underRisk | waitingForCustomerAction | picking | delivering
  | delivered | cancelled
  deriving DecidableEq, Repr

/-- `models.LineStatus` (source values OK, PARTIAL, ZERO, REPLACED). -/
inductive LineStatus
  | ok | underDelivered | zero | replaced
  deriving DecidableEq, Repr

/-- `models.ClaimStatus`. -/
inductive ClaimStatus
  | opened | aiProcessing | manualReview | approved | rejected | resolved
  deriving DecidableEq, Repr

/-- `models.InvoiceType`. -/
inductive InvoiceType
  | order | refund | modification
  deriving DecidableEq, Repr

/-- `models.InvoiceStatus`. -/
inductive InvoiceStatus
  | pending | paid | refunded | cancelled
  deriving DecidableEq, Repr

/-- HTTP error raised by a handler (`HTTPException` status codes). -/
inductive ApiError
  | notFound (detail : String)
  | badRequest (detail : String)
  | unprocessable (detail : String)
  deriving DecidableEq, Repr

/-- `models.Product` (the fields the modelled handlers read). -/
structure Product where
  productCode : String
  price : ℚ
  deriving DecidableEq, Repr

/-- `models.Order` (the fields the modelled handlers read). -/
structure Order where
  orderId : Nat
  customerId : String
  status : OrderStatus
  deriving DecidableEq, Repr

/-- `models.OrderLine`. -/
structure OrderLine where
  lineId : Nat
  orderId : Nat
  productCode : String
  orderedQty : ℚ
  lineStatus : LineStatus
  deriving DecidableEq, Repr

/-- `models.OrderSubstitute`; the synthetic primary key is never used by the
modelled lookups (rows are addressed by `(order_id, line_id, substitute_product_code)`),
so it is omitted. -/
structure OrderSubstitute where
  orderId : Nat
  lineId : Nat
  substituteProductCode : String
  priority : Nat
  isUsed : Bool
  deriving DecidableEq, Repr

/-- `models.Invoice`. -/
structure Invoice where
  invoiceId : Nat
  orderId : Option Nat
  claimId : Option Nat
  customerId : String
  invoiceType : InvoiceType
  status : InvoiceStatus
  totalAmount : ℚ
  taxAmount : ℚ
  deriving DecidableEq, Repr

/-- `models.InvoiceItem`. -/
structure InvoiceItem where
  invoiceId : Nat
  productCode : Option String
  quantity : ℚ
  unitPrice : ℚ
  totalPrice : ℚ
  deriving DecidableEq, Repr

/-- `models.Claim` (the fields the modelled handlers read). -/
structure Claim where
  claimId : Nat
  orderId : Nat
  customerId : String
  status : ClaimStatus
  creditAmount : Option ℚ
  handledBy : Option String
  rejectionReason : Option String
  deriving DecidableEq, Repr

/-- `models.ClaimProcessing`.  The `ai_result` JSON string is modelled as the
pair (summary, decision) it serialises. -/
structure ClaimProcessing where
  claimId : Nat
  aiProcessed : Bool
  aiConfidence : Option ℚ
  aiResult : Option (String × String)
  requiresManualReview : Bool
  reviewedBy : Option String
  deriving DecidableEq, Repr

/-- An item in a customer cart (`models.CartItem` with its
`models.CartItemSubstitute` children), the input to order placement. -/
structure CartSubstitute where
  substituteProductCode : String
  priority : Nat
  deriving DecidableEq, Repr

structure CartItem where
  productCode : String
  quantity : ℚ
  substitutes : List CartSubstitute
  deriving DecidableEq, Repr

/-- The relational store. -/
structure State where
  nextId : Nat
  products : List Product
  orders : List Order
  orderLines : List OrderLine
  orderSubstitutes : List OrderSubstitute
  invoices : List Invoice
  invoiceItems : List InvoiceItem
  claims : List Claim
  claimProcessings : List ClaimProcessing
  deriving DecidableEq, Repr

/-- Mutate the row `query(...).first()` would return: update the first element
satisfying `p`, leave everything else alone. -/
def updateFirst (p : α → Bool) (f : α → α) : List α → List α
  | [] => []
  | x :: xs => if p x then f x :: xs else x :: updateFirst p f xs

theorem updateFirst_nil (p : α → Bool) (f : α → α) : updateFirst p f [] = [] := rfl

theorem updateFirst_cons (p : α → Bool) (f : α → α) (x : α) (xs : List α) :
    updateFirst p f (x :: xs) = if p x then f x :: xs else x :: updateFirst p f xs := rfl

theorem updateFirst_of_forall_not {p : α → Bool} {f : α → α} {l : List α}
    (h : ∀ x ∈ l, ¬ p x) : updateFirst p f l = l := by
  induction l with
  | nil => rfl
  | cons x xs ih =>
      rw [updateFirst_cons, if_neg (h x (List.mem_cons_self x xs))]
      exact congrArg _ (ih fun y hy => h y (List.mem_cons_of_mem x hy))

/-- Elements of `updateFirst p f l` are either elements of `l` or `f` applied
to an element of `l` that satisfied `p`. -/
theorem mem_updateFirst {p : α → Bool} {f : α → α} {l : List α} {y : α}
    (hy : y ∈ updateFirst p f l) : y ∈ l ∨ ∃ x ∈ l, p x ∧ y = f x := by
  induction l with
  | nil => simp [updateFirst] at hy
  | cons x xs ih =>
      rw [updateFirst_cons] at hy
      by_cases hx : p x
      · rw [if_pos hx] at hy
        rcases List.mem_cons.mp hy with h | h
        · exact Or.inr ⟨x, List.mem_cons_self x xs, hx, h⟩
        · exact Or.inl (List.mem_cons_of_mem x h)
      · rw [if_neg hx] at hy
        rcases List.mem_cons.mp hy with h | h
        · exact Or.inl (h ▸ List.mem_cons_self x xs)
        · rcases ih h with h' | ⟨z, hz, hpz, hyz⟩
          · exact Or.inl (List.mem_cons_of_mem x h')
          · exact Or.inr ⟨z, List.mem_cons_of_mem x hz, hpz, hyz⟩

theorem find?_updateFirst {p : α → Bool} {f : α → α} {l : List α}
    (hf : ∀ x, p (f x) = p x) :
    (updateFirst p f l).find? p = (l.find? p).map f := by
  induction l with
  | nil => rfl
  | cons x xs ih =>
      rw [updateFirst_cons]
      by_cases hx : p x
      · rw [if_pos hx, List.find?_cons_of_pos _ (by rw [hf]; exact hx),
          List.find?_cons_of_pos _ hx, Option.map_some']
      · rw [if_neg hx, List.find?_cons_of_neg _ hx,
          List.find?_cons_of_neg _ hx, ih]

theorem map_updateFirst_of_preserve {p : α → Bool} {f : α → α} {g : α → β} {l : List α}
    (hf : ∀ x, g (f x) = g x) :
    (updateFirst p f l).map g = l.map g := by
  induction l with
  | nil => rfl
  | cons x xs ih =>
      rw [updateFirst_cons]
      by_cases hx : p x
      · rw [if_pos hx, List.map_cons, List.map_cons, hf]
      · rw [if_neg hx, List.map_cons, List.map_cons, ih]

/-- Filtering by the updated predicate: the first match is replaced by its
image, later matches are untouched. -/
theorem filter_updateFirst_self {p : α → Bool} {f : α → α} {l : List α}
    (hf : ∀ x, p (f x) = p x) :
    (updateFirst p f l).filter p =
      match l.filter p with
      | [] => []
      | x :: xs => f x :: xs := by
  induction l with
  | nil => rfl
  | cons x xs ih =>
      rw [updateFirst_cons]
      by_cases hx : p x
      · rw [if_pos hx, List.filter_cons, List.filter_cons, if_pos hx,
          if_pos (by rw [hf]; exact hx)]
      · rw [if_neg hx, List.filter_cons, List.filter_cons, if_neg hx, if_neg hx, ih]

/-- Filtering by an unrelated predicate is unaffected by the update. -/
theorem filter_updateFirst_other {p q : α → Bool} {f : α → α} {l : List α}
    (h : ∀ x, p x → (q x = false ∧ q (f x) = false)) :
    (updateFirst p f l).filter q = l.filter q := by
  induction l with
  | nil => rfl
  | cons x xs ih =>
      rw [updateFirst_cons]
      by_cases hx : p x
      · rw [if_pos hx, List.filter_cons, List.filter_cons, (h x hx).1, (h x hx).2]
        simp
      · rw [if_neg hx, List.filter_cons, List.filter_cons, ih]

theorem countP_updateFirst_le {p q : α → Bool} {f : α → α} {l : List α}
    (hf : ∀ x, q (f x) = true → q x = true) :
    (updateFirst p f l).countP q ≤ l.countP q := by
  induction l with
  | nil => simp [updateFirst]
  | cons x xs ih =>
      rw [updateFirst_cons]
      by_cases hx : p x
      · rw [if_pos hx, List.countP_cons, List.countP_cons]
        by_cases hq : q (f x) = true
        · rw [hq, hf x hq]
        · simp only [Bool.not_eq_true] at hq
          rw [hq]
          cases hqx : q x <;> simp [hqx]
      · rw [if_neg hx, List.countP_cons, List.countP_cons]
        exact Nat.add_le_add ih (Nat.le_refl _)

theorem countP_updateFirst_congr {p q : α → Bool} {f : α → α} {l : List α}
    (hf : ∀ x, q (f x) = q x) :
    (updateFirst p f l).countP q = l.countP q := by
  induction l with
  | nil => rfl
  | cons x xs ih =>
      rw [updateFirst_cons]
      by_cases hx : p x
      · rw [if_pos hx, List.countP_cons, List.countP_cons, hf]
      · rw [if_neg hx, List.countP_cons, List.countP_cons, ih]

/-- Cancelling the first match of an at-most-once predicate drops its count
to zero. -/
theorem countP_updateFirst_of_le_one {p : α → Bool} {f : α → α} {l : List α}
    (hf : ∀ x, p x = true → p (f x) = false) (h1 : l.countP p ≤ 1) :
    (updateFirst p f l).countP p = 0 := by
  induction l with
  | nil => rfl
  | cons x xs ih =>
      rw [List.countP_cons] at h1
      rw [updateFirst_cons]
      by_cases hx : p x
      · rw [if_pos hx, List.countP_cons, hf x hx]
        simp only [hx, if_pos] at h1
        have : xs.countP p = 0 := by omega
        simp [this]
      · rw [if_neg hx, List.countP_cons, ih (by simpa [hx] using h1)]
        simp [hx]

/-- `db.query(Product).filter(Product.product_code == code).first()`. -/
def findProduct? (s : State) (code : String) : Option Product :=
  s.products.find? (fun p => p.productCode == code)

/-- Sum of `total_price` over the `InvoiceItem` rows of one invoice. -/
def itemSumL (items : List InvoiceItem) (invId : Nat) : ℚ :=
  ((items.filter (fun it => it.invoiceId == invId)).map (·.totalPrice)).sum

def itemSum (s : State) (invId : Nat) : ℚ := itemSumL s.invoiceItems invId

/-- The cart items whose product exists (the source silently skips the rest
with `continue` in `place_order`), paired with their products. -/
def keptItems (s : State) (cart : List CartItem) : List (CartItem × Product) :=
  cart.filterMap (fun ci => (findProduct? s ci.productCode).map (fun p => (ci, p)))

/-- The 24% VAT applied by both invoice-creating handlers. -/
def vatRate : ℚ := 24 / 100

/-- A live (non-cancelled) ORDER invoice of order `oid`; this is also the
filter the source uses to find the invoice to cancel on regeneration. -/
def activeOrderInvoiceP (oid : Nat) : Invoice → Bool := fun inv =>
  inv.orderId == some oid && inv.invoiceType == InvoiceType.order &&
    !(inv.status == InvoiceStatus.cancelled)

/-- `total_amount` accumulated by `place_order`: `Σ quantity × price` over the
cart items whose product exists. -/
def placeTotal (s : State) (cart : List CartItem) : ℚ :=
  ((keptItems s cart).map (fun cp => cp.1.quantity * cp.2.price)).sum

/-- Order lines created by `place_order` (one per kept cart item). -/
def placeLines (s : State) (cart : List CartItem) : List OrderLine :=
  (keptItems s cart).enum.map (fun ip =>
    { lineId := s.nextId + 1 + ip.1, orderId := s.nextId,
      productCode := ip.2.1.productCode, orderedQty := ip.2.1.quantity,
      lineStatus := .ok })

/-- `OrderSubstitute` rows created by `place_order` from the cart item
substitutes (ranked by their cart `priority`, `is_used = false`). -/
def placeSubs (s : State) (cart : List CartItem) : List OrderSubstitute :=
  (keptItems s cart).enum.flatMap (fun ip =>
    ip.2.1.substitutes.map (fun cs =>
      { orderId := s.nextId, lineId := s.nextId + 1 + ip.1,
        substituteProductCode := cs.substituteProductCode,
        priority := cs.priority, isUsed := false }))

/-- Id of the initial ORDER invoice created by `place_order`. -/
def placeInvoiceId (s : State) (cart : List CartItem) : Nat :=
  s.nextId + 1 + (keptItems s cart).length

/-- The initial ORDER invoice created by `place_order`: status PENDING,
`tax = total × 0.24`. -/
def placeInvoice (customerId : String) (cart : List CartItem) (s : State) : Invoice :=
  { invoiceId := placeInvoiceId s cart, orderId := some s.nextId, claimId := none,
    customerId := customerId, invoiceType := .order, status := .pending,
    totalAmount := placeTotal s cart, taxAmount := placeTotal s cart * vatRate }

/-- Invoice items created by `place_order` (one per kept cart item). -/
def placeItems (s : State) (cart : List CartItem) : List InvoiceItem :=
  (keptItems s cart).map (fun cp =>
    { invoiceId := placeInvoiceId s cart, productCode := some cp.1.productCode,
      quantity := cp.1.quantity, unitPrice := cp.2.price,
      totalPrice := cp.1.quantity * cp.2.price })

/-- `place_order` in `src/Backend/app/routers/customer/orders.py`: creates the
order (status PLACED) with one line and the `OrderSubstitute` rows per cart
item whose product exists, and the initial ORDER invoice (status PENDING,
`total = Σ qty × price`, `tax = total × 0.24`) with one item per kept cart
item.  Delivery-date/window validation and cart clearing concern data outside
this model. -/
def place_order (customerId : String) (cart : List CartItem) (s : State) :
    Except ApiError State :=
  if cart.isEmpty then .error (.badRequest "Cart is empty") else
  let newOrder : Order :=
    { orderId := s.nextId, customerId := customerId, status := .placed }
  .ok { s with
    nextId := placeInvoiceId s cart + 1,
    orders := newOrder :: s.orders,
    orderLines := placeLines s cart ++ s.orderLines,
    orderSubstitutes := placeSubs s cart ++ s.orderSubstitutes,
    invoices := placeInvoice customerId cart s :: s.invoices,
    invoiceItems := placeItems s cart ++ s.invoiceItems }

/-- The query predicate of the `OrderSubstitute` lookup in
`replace_product_with_substitute`: the explicitly supplied
`(order_id, line_id, substitute_product_code)` — there is no `is_used`
filter and no `priority` ordering. -/
def substituteLookupP (orderId lineId : Nat) (substituteProductCode : String) :
    OrderSubstitute → Bool := fun os =>
  os.orderId == orderId && os.lineId == lineId &&
    os.substituteProductCode == substituteProductCode

/-- The order lines after the line rewrite of
`replace_product_with_substitute` (new product code, `line_status = REPLACED`). -/
def replacedLines (orderId lineId : Nat) (substituteProductCode : String)
    (lines : List OrderLine) : List OrderLine :=
  updateFirst (fun l => l.orderId == orderId && l.lineId == lineId)
    (fun l => { l with productCode := substituteProductCode, lineStatus := .replaced })
    lines

/-- The substitute table after the chosen row is flagged `is_used = true`. -/
def usedSubs (orderId lineId : Nat) (substituteProductCode : String)
    (subs : List OrderSubstitute) : List OrderSubstitute :=
  updateFirst (substituteLookupP orderId lineId substituteProductCode)
    (fun os => { os with isUsed := true }) subs

/-- The invoice table after the first non-cancelled ORDER invoice of the
order is marked CANCELLED. -/
def cancelActiveOrderInvoice (orderId : Nat) (invoices : List Invoice) :
    List Invoice :=
  updateFirst (activeOrderInvoiceP orderId)
    (fun inv => { inv with status := .cancelled }) invoices

/-- The order's current lines after the rewrite, paired with their products
(lines whose product is missing are skipped, as in the source loop). -/
def regenLineTotals (s : State) (orderId lineId : Nat)
    (substituteProductCode : String) : List (OrderLine × Product) :=
  ((replacedLines orderId lineId substituteProductCode s.orderLines).filter
      (fun l => l.orderId == orderId)).filterMap
    (fun l => (findProduct? s l.productCode).map (fun p => (l, p)))

/-- Total of the regenerated ORDER invoice. -/
def regenTotal (s : State) (orderId lineId : Nat)
    (substituteProductCode : String) : ℚ :=
  ((regenLineTotals s orderId lineId substituteProductCode).map
    (fun lp => lp.1.orderedQty * lp.2.price)).sum

/-- The regenerated ORDER invoice (status PENDING, `tax = total × 0.24`). -/
def regenInvoice (s : State) (orderId lineId : Nat)
    (substituteProductCode customerId : String) : Invoice :=
  { invoiceId := s.nextId, orderId := some orderId, claimId := none,
    customerId := customerId, invoiceType := .order, status := .pending,
    totalAmount := regenTotal s orderId lineId substituteProductCode,
    taxAmount := regenTotal s orderId lineId substituteProductCode * vatRate }

/-- Items of the regenerated ORDER invoice (one per current line whose
product exists). -/
def regenItems (s : State) (orderId lineId : Nat)
    (substituteProductCode : String) : List InvoiceItem :=
  (regenLineTotals s orderId lineId substituteProductCode).map (fun lp =>
    { invoiceId := s.nextId, productCode := some lp.1.productCode,
      quantity := lp.1.orderedQty, unitPrice := lp.2.price,
      totalPrice := lp.1.orderedQty * lp.2.price })

/-- The MODIFICATION invoice for a non-zero price difference: its total is
the *absolute* difference `|price_diff|`. -/
def modInvoice (s : State) (orderId : Nat) (customerId : String)
    (priceDiff : ℚ) : Invoice :=
  { invoiceId := s.nextId + 1, orderId := some orderId, claimId := none,
    customerId := customerId, invoiceType := .modification, status := .pending,
    totalAmount := |priceDiff|, taxAmount := |priceDiff| * vatRate }

/-- The single item of the MODIFICATION invoice: it keeps the *signed*
price difference. -/
def modItem (s : State) (substituteProductCode : String)
    (orderedQty unitDiff priceDiff : ℚ) : InvoiceItem :=
  { invoiceId := s.nextId + 1, productCode := some substituteProductCode,
    quantity := orderedQty, unitPrice := unitDiff, totalPrice := priceDiff }

/-- `replace_product_with_substitute` in
`src/Backend/app/routers/admin/orders.py`: looks up the order, the line, the
`OrderSubstitute` row for the explicitly supplied `(order_id, line_id,
substitute_product_code)` and the two products; rewrites the line, marks the
substitute used, cancels the first non-cancelled ORDER invoice, creates a
regenerated ORDER invoice over the order's current lines, and, when the unit
prices differ, a MODIFICATION invoice whose total is `|price_diff|` while
its single item keeps the signed `price_diff`. -/
def replace_product_with_substitute (orderId lineId : Nat)
    (substituteProductCode : String) (s : State) : Except ApiError State :=
  match s.orders.find? (fun o => o.orderId == orderId) with
  | none => .error (.notFound "Order not found")
  | some order =>
  match s.orderLines.find? (fun l => l.orderId == orderId && l.lineId == lineId) with
  | none => .error (.notFound "Order line not found")
  | some orderLine =>
  match s.orderSubstitutes.find?
      (substituteLookupP orderId lineId substituteProductCode) with
  | none => .error (.badRequest "Substitute not found in order")
  | some _ =>
  match findProduct? s substituteProductCode with
  | none => .error (.notFound "Substitute product not found")
  | some substituteProduct =>
  match findProduct? s orderLine.productCode with
  | none => .error (.notFound "Original product not found")
  | some oldProduct =>
  let priceDiff := (substituteProduct.price - oldProduct.price) * orderLine.orderedQty
  if priceDiff = 0 then
    .ok { s with
      nextId := s.nextId + 1,
      orderLines := replacedLines orderId lineId substituteProductCode s.orderLines,
      orderSubstitutes := usedSubs orderId lineId substituteProductCode s.orderSubstitutes,
      invoices := regenInvoice s orderId lineId substituteProductCode order.customerId ::
        cancelActiveOrderInvoice orderId s.invoices,
      invoiceItems := regenItems s orderId lineId substituteProductCode ++ s.invoiceItems }
  else
    .ok { s with
      nextId := s.nextId + 2,
      orderLines := replacedLines orderId lineId substituteProductCode s.orderLines,
      orderSubstitutes := usedSubs orderId lineId substituteProductCode s.orderSubstitutes,
      invoices := modInvoice s orderId order.customerId priceDiff ::
        regenInvoice s orderId lineId substituteProductCode order.customerId ::
        cancelActiveOrderInvoice orderId s.invoices,
      invoiceItems := modItem s substituteProductCode orderLine.orderedQty
          (substituteProduct.price - oldProduct.price) priceDiff ::
        (regenItems s orderId lineId substituteProductCode ++ s.invoiceItems) }

/-- Per-row form of the cancellation sweep: a non-cancelled invoice of the
order is moved to CANCELLED, anything else is untouched. -/
def cancelInv (oid : Nat) (inv : Invoice) : Invoice :=
  if inv.orderId == some oid && !(inv.status == InvoiceStatus.cancelled)
  then { inv with status := .cancelled } else inv

/-- The `for invoice in invoices: invoice.status = CANCELLED` sweep run when
an order is cancelled (both the admin and the customer path). -/
def cancelOrderInvoices (oid : Nat) (invoices : List Invoice) : List Invoice :=
  invoices.map (cancelInv oid)

/-- `update_order_status` in `src/Backend/app/routers/admin/orders.py`: sets
the status unconditionally (no terminal-state guard), and on CANCELLED moves
every non-cancelled invoice of the order to CANCELLED. -/
def update_order_status (orderId : Nat) (newStatus : OrderStatus) (s : State) :
    Except ApiError State :=
  match s.orders.find? (fun o => o.orderId == orderId) with
  | none => .error (.notFound "Order not found")
  | some _ =>
    .ok { s with
      orders := updateFirst (fun o => o.orderId == orderId)
        (fun o => { o with status := newStatus }) s.orders,
      invoices :=
        if newStatus = OrderStatus.cancelled then
          cancelOrderInvoices orderId s.invoices
        else s.invoices }

/-- `cancel_order` in `src/Backend/app/routers/customer/orders.py`: 404 when
the customer has no such order, 400 when the order is already CANCELLED or is
DELIVERED; otherwise sets CANCELLED and voids every non-cancelled invoice of
the order. -/
def cancel_order (orderId : Nat) (customerId : String) (s : State) :
    Except ApiError State :=
  match s.orders.find? (fun o => o.orderId == orderId && o.customerId == customerId) with
  | none => .error (.notFound "Order not found")
  | some order =>
    if order.status = OrderStatus.cancelled then
      .error (.badRequest "Order is already cancelled")
    else if order.status = OrderStatus.delivered then
      .error (.badRequest "Cannot cancel a delivered order")
    else
      .ok { s with
        orders := updateFirst
          (fun o => o.orderId == orderId && o.customerId == customerId)
          (fun o => { o with status := .cancelled }) s.orders,
        invoices := cancelOrderInvoices orderId s.invoices }

/-- `create_claim` in `src/Backend/app/routers/customer/claims.py`: the order
must belong to the customer *and* have status DELIVERED (a single filtered
query; 404 "Order not found or not delivered" otherwise).  The claim is
created OPEN and set to AI_PROCESSING before the commit, together with its
`ClaimProcessing` row (`ai_processed=false`). -/
def create_claim (customerId : String) (orderId : Nat) (s : State) :
    Except ApiError State :=
  match s.orders.find? (fun o => o.orderId == orderId &&
      o.customerId == customerId && o.status == OrderStatus.delivered) with
  | none => .error (.notFound "Order not found or not delivered")
  | some _ =>
    let claimId := s.nextId
    let newClaim : Claim :=
      { claimId := claimId, orderId := orderId, customerId := customerId,
        status := .aiProcessing, creditAmount := none, handledBy := none,
        rejectionReason := none }
    let newProcessing : ClaimProcessing :=
      { claimId := claimId, aiProcessed := false, aiConfidence := none,
        aiResult := none, requiresManualReview := false, reviewedBy := none }
    .ok { s with
      nextId := claimId + 1,
      claims := newClaim :: s.claims,
      claimProcessings := newProcessing :: s.claimProcessings }

/-- `create_claim` in `src/Backend/app/routers/claims.py` (generic claims
router, not mounted by `app/main.py`): only checks that the order exists —
any order status is accepted — and creates the claim with status OPEN and no
`ClaimProcessing` row. -/
def create_claim_generic (orderId : Nat) (s : State) : Except ApiError State :=
  match s.orders.find? (fun o => o.orderId == orderId) with
  | none => .error (.notFound "Order not found")
  | some order =>
    let claimId := s.nextId
    let newClaim : Claim :=
      { claimId := claimId, orderId := orderId, customerId := order.customerId,
        status := .opened, creditAmount := none, handledBy := none,
        rejectionReason := none }
    .ok { s with
      nextId := claimId + 1,
      claims := newClaim :: s.claims }

/-- `Σ line.ordered_qty × (line.product.price if line.product and
line.product.price else 0)` over the order's current lines, as computed by
both refund-amount calculations. -/
def orderValue (s : State) (orderId : Nat) : ℚ :=
  ((s.orderLines.filter (fun l => l.orderId == orderId)).map (fun l =>
    match findProduct? s l.productCode with
    | some p => l.orderedQty * p.price
    | none => 0)).sum

/-- The default refund of `approve_claim` / `process_claim_ai`: 10% of the
order value with a 1.0 floor, and 1.0 outright when the order is missing. -/
def computeDefaultRefund (s : State) (orderId : Nat) : ℚ :=
  match s.orders.find? (fun o => o.orderId == orderId) with
  | some _ =>
      let refund := orderValue s orderId * (1 / 10)
      if refund < 1 then 1 else refund
  | none => 1

/-- `approve_claim` in `src/Backend/app/routers/admin/claims.py`: no
claim-status precondition; sets APPROVED and `handled_by`, clears
`requires_manual_review` on the `ClaimProcessing` row when one exists,
computes the default refund when no amount is supplied, then looks for *any*
REFUND invoice of the claim (`.first()`, no status filter): creates a new
PENDING REFUND invoice (`tax_amount = 0`) with a single item when none
exists, otherwise updates the existing invoice and its first item in place
when the amount differs. -/
def refundLookupP (claimId : Nat) : Invoice → Bool := fun inv =>
  inv.claimId == some claimId && inv.invoiceType == InvoiceType.refund

/-- The fresh REFUND invoice (status PENDING, `tax_amount = 0`). -/
def refundInvoice (s : State) (claimId : Nat) (customerId : String)
    (amount : ℚ) : Invoice :=
  { invoiceId := s.nextId, orderId := none, claimId := some claimId,
    customerId := customerId, invoiceType := .refund, status := .pending,
    totalAmount := amount, taxAmount := 0 }

/-- The single item of a fresh REFUND invoice. -/
def refundItem (s : State) (amount : ℚ) : InvoiceItem :=
  { invoiceId := s.nextId, productCode := none, quantity := 1,
    unitPrice := amount, totalPrice := amount }

/-- The claim table after approval. -/
def approvedClaims (claimId : Nat) (adminId : String) (refundAmount : ℚ)
    (claims : List Claim) : List Claim :=
  updateFirst (fun c => c.claimId == claimId)
    (fun c =>
      { c with
        status := .approved,
        handledBy := some adminId,
        creditAmount := some refundAmount }) claims

/-- The `ClaimProcessing` table after a human review
(`requires_manual_review` cleared, reviewer recorded). -/
def reviewedProcessings (claimId : Nat) (adminId : String)
    (ps : List ClaimProcessing) : List ClaimProcessing :=
  updateFirst (fun p => p.claimId == claimId)
    (fun p =>
      { p with
        requiresManualReview := false,
        reviewedBy := some adminId }) ps

/-- `refund_amount if refund_amount is not None else <default computation>`. -/
def resolveRefundAmount (s : State) (claim : Claim)
    (refundAmountInput : Option ℚ) : ℚ :=
  match refundAmountInput with
  | some a => a
  | none => computeDefaultRefund s claim.orderId

def approve_claim (claimId : Nat) (refundAmountInput : Option ℚ)
    (adminId : String) (s : State) : Except ApiError State :=
  match s.claims.find? (fun c => c.claimId == claimId) with
  | none => .error (.notFound "Claim not found")
  | some claim =>
    let refundAmount := resolveRefundAmount s claim refundAmountInput
    match s.invoices.find? (refundLookupP claimId) with
    | none =>
        .ok { s with
          nextId := s.nextId + 1,
          claims := approvedClaims claimId adminId refundAmount s.claims,
          claimProcessings := reviewedProcessings claimId adminId s.claimProcessings,
          invoices := refundInvoice s claimId claim.customerId refundAmount :: s.invoices,
          invoiceItems := refundItem s refundAmount :: s.invoiceItems }
    | some existing =>
        if existing.totalAmount = refundAmount then
          .ok { s with
            claims := approvedClaims claimId adminId refundAmount s.claims,
            claimProcessings := reviewedProcessings claimId adminId s.claimProcessings }
        else
          .ok { s with
            claims := approvedClaims claimId adminId refundAmount s.claims,
            claimProcessings := reviewedProcessings claimId adminId s.claimProcessings,
            invoices := updateFirst (fun inv => inv.invoiceId == existing.invoiceId)
              (fun inv => { inv with totalAmount := refundAmount }) s.invoices,
            invoiceItems := updateFirst (fun it => it.invoiceId == existing.invoiceId)
              (fun it =>
                { it with
                  unitPrice := refundAmount,
                  totalPrice := refundAmount }) s.invoiceItems }

/-- Result of the AI claim adjudicator (`ClaimResult` in
`src/Backend/app/AI_Services/claim_processor.py`). -/
structure ClaimResult where
  summary : String
  confidence : ℚ
  decision : String
  deriving DecidableEq, Repr

/-- `process_claim` in `claim_processor.py`: every failure of the collaborator
call — missing API key, claim/order lookup failure, transport exception,
unparseable payload — is caught inside the function and surfaces as `None`;
the function never raises. -/
def process_claim (outcome : Except String ClaimResult) : Option ClaimResult :=
  match outcome with
  | .ok r => some r
  | .error _ => none

/-- The decision clamp of `process_claim`: anything outside the three known
decisions becomes `manual_review_needed`. -/
def clampDecision (d : String) : String :=
  if d == "approved" || d == "rejected" || d == "manual_review_needed" then d
  else "manual_review_needed"

/-- The confidence clamp of `process_claim`: into [0, 1]. -/
def clampConfidence (c : ℚ) : ℚ := max 0 (min 1 c)

/-- The fixed `ai_result` written on AI failure. -/
def fallbackSummary : String :=
  "AI processing encountered an error. Claim requires manual review."

/-- Claim table update on the MANUAL_REVIEW paths. -/
def manualReviewClaims (claimId : Nat) (claims : List Claim) : List Claim :=
  updateFirst (fun c => c.claimId == claimId)
    (fun c => { c with status := .manualReview }) claims

/-- `ClaimProcessing` update on AI failure: the deterministic fallback. -/
def fallbackProcessings (claimId : Nat) (ps : List ClaimProcessing) :
    List ClaimProcessing :=
  updateFirst (fun p => p.claimId == claimId)
    (fun p =>
      { p with
        aiProcessed := true,
        requiresManualReview := true,
        aiConfidence := some 0,
        aiResult := some (fallbackSummary, "manual_review_needed") }) ps

/-- `ClaimProcessing` update recording a successful AI result. -/
def aiResultProcessings (claimId : Nat) (res : ClaimResult)
    (ps : List ClaimProcessing) : List ClaimProcessing :=
  updateFirst (fun p => p.claimId == claimId)
    (fun p =>
      { p with
        aiProcessed := true,
        aiConfidence := some res.confidence,
        aiResult := some (res.summary, res.decision) }) ps

/-- `process_claim_ai` in `src/Backend/app/routers/customer/claims.py`
(background task).  When `process_claim` yields nothing the claim becomes
MANUAL_REVIEW with `ai_confidence = 0.0` and the fixed fallback result.  On a
result: `manual_review_needed` flags manual review, `approved` approves,
writes `handled_by = "AI_AGENT"` and — only when no REFUND invoice exists for
the claim yet — computes the default refund, stores it on the claim and
creates the REFUND invoice with its single item; `rejected` rejects with the
AI summary as reason. -/
def process_claim_ai (claimId : Nat) (outcome : Except String ClaimResult)
    (s : State) : State :=
  match s.claims.find? (fun c => c.claimId == claimId) with
  | none => s
  | some claim =>
  match s.claimProcessings.find? (fun p => p.claimId == claimId) with
  | none => s
  | some _ =>
  match process_claim outcome with
  | none =>
      { s with
        claims := manualReviewClaims claimId s.claims,
        claimProcessings := fallbackProcessings claimId s.claimProcessings }
  | some raw =>
      let res : ClaimResult :=
        { raw with
          decision := clampDecision raw.decision,
          confidence := clampConfidence raw.confidence }
      if res.decision == "manual_review_needed" then
        { s with
          claims := manualReviewClaims claimId s.claims,
          claimProcessings := updateFirst (fun p => p.claimId == claimId)
            (fun p => { p with requiresManualReview := true })
            (aiResultProcessings claimId res s.claimProcessings) }
      else if res.decision == "approved" then
        let claimsApproved := updateFirst (fun c => c.claimId == claimId)
          (fun c => { c with status := .approved, handledBy := some "AI_AGENT" })
          s.claims
        let processings' := updateFirst (fun p => p.claimId == claimId)
          (fun p => { p with requiresManualReview := false })
          (aiResultProcessings claimId res s.claimProcessings)
        match s.invoices.find? (refundLookupP claimId) with
        | some _ =>
            { s with
              claims := claimsApproved,
              claimProcessings := processings' }
        | none =>
            let refundAmount := computeDefaultRefund s claim.orderId
            { s with
              nextId := s.nextId + 1,
              claims := updateFirst (fun c => c.claimId == claimId)
                (fun c => { c with creditAmount := some refundAmount }) claimsApproved,
              claimProcessings := processings',
              invoices := refundInvoice s claimId claim.customerId refundAmount :: s.invoices,
              invoiceItems := refundItem s refundAmount :: s.invoiceItems }
      else
        { s with
          claims := updateFirst (fun c => c.claimId == claimId)
            (fun c =>
              { c with
                status := .rejected,
                handledBy := some "AI_AGENT",
                rejectionReason := some res.summary }) s.claims,
          claimProcessings := updateFirst (fun p => p.claimId == claimId)
            (fun p => { p with requiresManualReview := false })
            (aiResultProcessings claimId res s.claimProcessings) }

/-- The mutating operations of the workflow, as invokable requests. -/
inductive Op
  | place (customerId : String) (cart : List CartItem)
  | replace (orderId lineId : Nat) (substituteProductCode : String)
  | updateStatus (orderId : Nat) (newStatus : OrderStatus)
  | cancel (orderId : Nat) (customerId : String)
  | intake (customerId : String) (orderId : Nat)
  | intakeGeneric (orderId : Nat)
  | approve (claimId : Nat) (refundAmountInput : Option ℚ) (adminId : String)
  | aiProcess (claimId : Nat) (outcome : Except String ClaimResult)

def runOp (op : Op) (s : State) : Except ApiError State :=
  match op with
  | .place cid cart => place_order cid cart s
  | .replace oid lid code => replace_product_with_substitute oid lid code s
  | .updateStatus oid st => update_order_status oid st s
  | .cancel oid cid => cancel_order oid cid s
  | .intake cid oid => create_claim cid oid s
  | .intakeGeneric oid => create_claim_generic oid s
  | .approve cid amt ad => approve_claim cid amt ad s
  | .aiProcess cid outcome => .ok (process_claim_ai cid outcome s)

/-- A handler that raises rolls its transaction back: the store is unchanged. -/
def applyOp (s : State) (op : Op) : State :=
  match runOp op s with
  | .ok s' => s'
  | .error _ => s

/-- The store right after seeding the product catalog. -/
def initState (products : List Product) : State :=
  { nextId := 0, products := products, orders := [], orderLines := [],
    orderSubstitutes := [], invoices := [], invoiceItems := [], claims := [],
    claimProcessings := [] }

/-- The store after a sequence of requests against a seeded catalog. -/
def reach (products : List Product) (ops : List Op) : State :=
  ops.foldl applyOp (initState products)

/-- The spec's invoice sum invariant, as stated:
`total_amount = Σ items.total_price` for every non-cancelled invoice. -/
def SumConsistent (s : State) : Prop :=
  ∀ inv ∈ s.invoices, inv.status ≠ InvoiceStatus.cancelled →
    inv.totalAmount = itemSum s inv.invoiceId

instance (s : State) : Decidable (SumConsistent s) := by
  unfold SumConsistent; infer_instance

/-- The sum invariant the code actually maintains: MODIFICATION invoices carry
the absolute value of their (signed) single-item sum, all other non-cancelled
invoices match their item sum exactly. -/
def SumConsistentAmended (s : State) : Prop :=
  ∀ inv ∈ s.invoices, inv.status ≠ InvoiceStatus.cancelled →
    (inv.invoiceType = InvoiceType.modification →
      inv.totalAmount = |itemSum s inv.invoiceId|) ∧
    (inv.invoiceType ≠ InvoiceType.modification →
      inv.totalAmount = itemSum s inv.invoiceId)

/-- The inductive invariant of reachable stores. -/
structure Inv (s : State) : Prop where
  invoiceIdLt : ∀ inv ∈ s.invoices, inv.invoiceId < s.nextId
  itemIdLt : ∀ it ∈ s.invoiceItems, it.invoiceId < s.nextId
  orderIdLt : ∀ o ∈ s.orders, o.orderId < s.nextId
  claimIdLt : ∀ c ∈ s.claims, c.claimId < s.nextId
  invoiceOrderRefLt :
    ∀ inv ∈ s.invoices, ∀ oid, inv.orderId = some oid → oid < s.nextId
  invoiceIdNodup : (s.invoices.map (·.invoiceId)).Nodup
  sumOk : SumConsistentAmended s
  refundSingleItem : ∀ inv ∈ s.invoices, inv.invoiceType = InvoiceType.refund →
    (s.invoiceItems.filter (fun it => it.invoiceId == inv.invoiceId)).length = 1
  activeOrderOnce : ∀ oid : Nat, s.invoices.countP (activeOrderInvoiceP oid) ≤ 1

instance (s : State) : Decidable (SumConsistentAmended s) := by
  unfold SumConsistentAmended; infer_instance

theorem itemSumL_append (l₁ l₂ : List InvoiceItem) (n : Nat) :
    itemSumL (l₁ ++ l₂) n = itemSumL l₁ n + itemSumL l₂ n := by
  simp [itemSumL, List.filter_append]

theorem itemSumL_eq_zero {l : List InvoiceItem} {n : Nat}
    (h : ∀ it ∈ l, (it.invoiceId == n) = false) : itemSumL l n = 0 := by
  rw [itemSumL, List.filter_eq_nil_iff.mpr (by simpa using h)]
  rfl

theorem itemSumL_append_left_ne {l₁ l₂ : List InvoiceItem} {n : Nat}
    (h : ∀ it ∈ l₁, (it.invoiceId == n) = false) :
    itemSumL (l₁ ++ l₂) n = itemSumL l₂ n := by
  rw [itemSumL_append, itemSumL_eq_zero h, zero_add]

theorem itemSumL_cons_ne {it : InvoiceItem} {l : List InvoiceItem} {n : Nat}
    (h : (it.invoiceId == n) = false) :
    itemSumL (it :: l) n = itemSumL l n := by
  rw [itemSumL, List.filter_cons, if_neg (by simp [h]), itemSumL]

theorem itemSumL_cons_eq {it : InvoiceItem} {l : List InvoiceItem} {n : Nat}
    (h : (it.invoiceId == n) = true) :
    itemSumL (it :: l) n = it.totalPrice + itemSumL l n := by
  rw [itemSumL, List.filter_cons, if_pos (by simp [h])]
  simp [itemSumL]

/-- Every member of `updateFirst p f l` satisfies `Q` when old members do and
`f` keeps `Q` on members satisfying `p`. -/
theorem forall_mem_updateFirst {p : α → Bool} {f : α → α} {l : List α}
    {Q : α → Prop} (hl : ∀ x ∈ l, Q x) (hf : ∀ x ∈ l, p x → Q (f x)) :
    ∀ y ∈ updateFirst p f l, Q y := by
  intro y hy
  rcases mem_updateFirst hy with h | ⟨x, hx, hpx, rfl⟩
  · exact hl y h
  · exact hf x hx hpx

/-- Invariant reassembly: a request that leaves the invoice tables untouched
and does not lower the id counter preserves `Inv` as soon as the order and
claim id bounds are reestablished. -/
theorem Inv.rebuild {s t : State} (h : Inv s)
    (hinv : t.invoices = s.invoices)
    (hitem : t.invoiceItems = s.invoiceItems)
    (hnext : s.nextId ≤ t.nextId)
    (hord : ∀ o ∈ t.orders, o.orderId < t.nextId)
    (hclaim : ∀ c ∈ t.claims, c.claimId < t.nextId) : Inv t := by
  refine ⟨?_, ?_, hord, hclaim, ?_, ?_, ?_, ?_, ?_⟩
  · exact fun inv hi => hinv ▸ hi |> h.invoiceIdLt inv |>.trans_le hnext
  · exact fun it hi => hitem ▸ hi |> h.itemIdLt it |>.trans_le hnext
  · exact fun inv hi oid ho =>
      (h.invoiceOrderRefLt inv (hinv ▸ hi) oid ho).trans_le hnext
  · exact hinv ▸ h.invoiceIdNodup
  · intro inv hi hnc
    have := h.sumOk inv (hinv ▸ hi) hnc
    simpa [itemSum, hitem] using this
  · intro inv hi ht
    rw [hitem]
    exact h.refundSingleItem inv (hinv ▸ hi) ht
  · intro oid
    rw [hinv]
    exact h.activeOrderOnce oid

/-- `create_claim` (customer intake) preserves the invariant. -/
theorem inv_create_claim {s t : State} (h : Inv s) {cid : String} {oid : Nat}
    (ht : create_claim cid oid s = .ok t) : Inv t := by
  unfold create_claim at ht
  rcases hfind : s.orders.find? (fun o => o.orderId == oid &&
      o.customerId == cid && o.status == OrderStatus.delivered) with _ | o
  · rw [hfind] at ht; cases ht
  · rw [hfind] at ht
    cases ht
    refine h.rebuild rfl rfl (Nat.le_succ _) ?_ ?_
    · exact fun o ho => (h.orderIdLt o ho).trans (Nat.lt_succ_self _)
    · intro c hc
      rcases List.mem_cons.mp hc with rfl | hc
      · exact Nat.lt_succ_self _
      · exact (h.claimIdLt c hc).trans (Nat.lt_succ_self _)

/-- `create_claim` (generic claims router) preserves the invariant. -/
theorem inv_create_claim_generic {s t : State} (h : Inv s) {oid : Nat}
    (ht : create_claim_generic oid s = .ok t) : Inv t := by
  unfold create_claim_generic at ht
  rcases hfind : s.orders.find? (fun o => o.orderId == oid) with _ | o
  · rw [hfind] at ht; cases ht
  · rw [hfind] at ht
    cases ht
    refine h.rebuild rfl rfl (Nat.le_succ _) ?_ ?_
    · exact fun o ho => (h.orderIdLt o ho).trans (Nat.lt_succ_self _)
    · intro c hc
      rcases List.mem_cons.mp hc with rfl | hc
      · exact Nat.lt_succ_self _
      · exact (h.claimIdLt c hc).trans (Nat.lt_succ_self _)

theorem itemSumL_all_eq {l : List InvoiceItem} {n : Nat}
    (h : ∀ it ∈ l, (it.invoiceId == n) = true) :
    itemSumL l n = (l.map (·.totalPrice)).sum := by
  rw [itemSumL, List.filter_eq_self.mpr h]

theorem placeInvoiceId_ge (s : State) (cart : List CartItem) :
    s.nextId ≤ placeInvoiceId s cart := by
  unfold placeInvoiceId; omega

theorem placeItems_id {s : State} {cart : List CartItem} :
    ∀ it ∈ placeItems s cart, it.invoiceId = placeInvoiceId s cart := by
  intro it hit
  rcases List.mem_map.mp hit with ⟨cp, _, rfl⟩
  rfl

theorem placeItems_sum (s : State) (cart : List CartItem) :
    itemSumL (placeItems s cart) (placeInvoiceId s cart) = placeTotal s cart := by
  rw [itemSumL_all_eq (fun it hit => by simp [placeItems_id it hit])]
  simp [placeItems, placeTotal, List.map_map]
  rfl

/-- `place_order` preserves the invariant. -/
theorem inv_place_order {s t : State} (h : Inv s) {cid : String}
    {cart : List CartItem} (ht : place_order cid cart s = .ok t) : Inv t := by
  unfold place_order at ht
  by_cases hc : cart.isEmpty
  · rw [if_pos hc] at ht; cases ht
  · rw [if_neg hc] at ht
    injection ht with ht
    subst ht
    have hJ : s.nextId ≤ placeInvoiceId s cart := placeInvoiceId_ge s cart
    refine ⟨?_, ?_, ?_, ?_, ?_, ?_, ?_, ?_, ?_⟩ <;> dsimp only
    · intro inv hi
      rcases List.mem_cons.mp hi with rfl | hi
      · show placeInvoiceId s cart < placeInvoiceId s cart + 1
        omega
      · exact (h.invoiceIdLt inv hi).trans_le (by omega)
    · intro it hi
      rcases List.mem_append.mp hi with hi | hi
      · rw [placeItems_id it hi]; omega
      · exact (h.itemIdLt it hi).trans_le (by omega)
    · intro o ho
      rcases List.mem_cons.mp ho with rfl | ho
      · show s.nextId < placeInvoiceId s cart + 1
        omega
      · exact (h.orderIdLt o ho).trans_le (by omega)
    · intro c hcm
      exact (h.claimIdLt c hcm).trans_le (by omega)
    · intro inv hi oid ho
      rcases List.mem_cons.mp hi with rfl | hi
      · cases ho
        show s.nextId < placeInvoiceId s cart + 1
        omega
      · exact (h.invoiceOrderRefLt inv hi oid ho).trans_le (by omega)
    · rw [List.map_cons, List.nodup_cons]
      refine ⟨?_, h.invoiceIdNodup⟩
      intro hmem
      rcases List.mem_map.mp hmem with ⟨inv, hi, hid⟩
      have hid2 : inv.invoiceId = placeInvoiceId s cart := hid
      have := h.invoiceIdLt inv hi
      show False
      omega
    · intro inv hi hnc
      rcases List.mem_cons.mp hi with rfl | hi
      · constructor
        · intro habs; cases habs
        · intro _
          show placeTotal s cart = itemSum _ (placeInvoiceId s cart)
          rw [itemSum]
          show placeTotal s cart =
            itemSumL (placeItems s cart ++ s.invoiceItems) (placeInvoiceId s cart)
          rw [itemSumL_append,
            itemSumL_eq_zero (l := s.invoiceItems) (fun it hit => by
              have := h.itemIdLt it hit
              simp only [beq_eq_false_iff_ne, ne_eq]
              omega),
            add_zero, placeItems_sum]
      · have hold := h.sumOk inv hi hnc
        have hsum : itemSumL (placeItems s cart ++ s.invoiceItems) inv.invoiceId =
            itemSumL s.invoiceItems inv.invoiceId := by
          refine itemSumL_append_left_ne (fun it hit => ?_)
          rw [placeItems_id it hit]
          have := h.invoiceIdLt inv hi
          simp only [beq_eq_false_iff_ne, ne_eq]
          omega
        constructor
        · intro hm
          show inv.totalAmount = |itemSumL _ inv.invoiceId|
          rw [hsum]
          exact hold.1 hm
        · intro hm
          show inv.totalAmount = itemSumL _ inv.invoiceId
          rw [hsum]
          exact hold.2 hm
    · intro inv hi hr
      rcases List.mem_cons.mp hi with rfl | hi
      · cases hr
      · show ((placeItems s cart ++ s.invoiceItems).filter
            (fun it => it.invoiceId == inv.invoiceId)).length = 1
        rw [List.filter_append, List.filter_eq_nil_iff.mpr (fun it hit => by
          rw [placeItems_id it hit]
          have := h.invoiceIdLt inv hi
          simp only [beq_iff_eq]
          omega), List.nil_append]
        exact h.refundSingleItem inv hi hr
    · intro oid
      by_cases hoid : oid = s.nextId
      · subst hoid
        rw [List.countP_cons]
        have hz : s.invoices.countP (activeOrderInvoiceP s.nextId) = 0 := by
          rw [List.countP_eq_zero]
          intro inv hi hact
          unfold activeOrderInvoiceP at hact
          simp only [Bool.and_eq_true, beq_iff_eq] at hact
          have := h.invoiceOrderRefLt inv hi s.nextId hact.1.1
          omega
        rw [hz]
        split <;> omega
      · rw [List.countP_cons]
        have hfalse : activeOrderInvoiceP oid (placeInvoice cid cart s) = false := by
          unfold activeOrderInvoiceP placeInvoice
          simp only [Bool.and_eq_false_iff]
          left; left
          simp only [beq_eq_false_iff_ne, ne_eq, Option.some.injEq]
          exact fun hh => hoid hh.symm
        rw [hfalse]
        simpa using h.activeOrderOnce oid

theorem cancelInv_invoiceId (oid : Nat) (inv : Invoice) :
    (cancelInv oid inv).invoiceId = inv.invoiceId := by
  unfold cancelInv; split <;> rfl

theorem cancelInv_orderId (oid : Nat) (inv : Invoice) :
    (cancelInv oid inv).orderId = inv.orderId := by
  unfold cancelInv; split <;> rfl

theorem cancelInv_invoiceType (oid : Nat) (inv : Invoice) :
    (cancelInv oid inv).invoiceType = inv.invoiceType := by
  unfold cancelInv; split <;> rfl

theorem cancelInv_eq_of_not_cancelled {oid : Nat} {inv : Invoice}
    (h : (cancelInv oid inv).status ≠ InvoiceStatus.cancelled) :
    cancelInv oid inv = inv := by
  unfold cancelInv at h ⊢
  by_cases hc : (inv.orderId == some oid &&
      !(inv.status == InvoiceStatus.cancelled)) = true
  · rw [if_pos hc] at h
    exact absurd rfl h
  · rw [if_neg hc]

theorem activeOrderInvoiceP_cancelInv {oid' oid : Nat} {inv : Invoice}
    (h : activeOrderInvoiceP oid' (cancelInv oid inv) = true) :
    activeOrderInvoiceP oid' inv = true := by
  unfold cancelInv at h
  split at h
  · unfold activeOrderInvoiceP at h
    simp at h
  · exact h

/-- The invoice-cancellation sweep preserves the invariant (run by both
cancellation paths). -/
theorem inv_cancel_sweep {s : State} (h : Inv s) (oid : Nat) (t : State)
    (htinv : t.invoices = cancelOrderInvoices oid s.invoices)
    (htitem : t.invoiceItems = s.invoiceItems)
    (htnext : t.nextId = s.nextId)
    (hord : ∀ o ∈ t.orders, o.orderId < t.nextId)
    (hclaim : ∀ c ∈ t.claims, c.claimId < t.nextId) : Inv t := by
  refine ⟨?_, ?_, hord, hclaim, ?_, ?_, ?_, ?_, ?_⟩
  · intro inv hi
    rw [htinv] at hi
    rcases List.mem_map.mp hi with ⟨inv0, hi0, rfl⟩
    rw [cancelInv_invoiceId, htnext]
    exact h.invoiceIdLt inv0 hi0
  · intro it hi
    rw [htitem] at hi
    rw [htnext]
    exact h.itemIdLt it hi
  · intro inv hi oidr ho
    rw [htinv] at hi
    rcases List.mem_map.mp hi with ⟨inv0, hi0, rfl⟩
    rw [cancelInv_orderId] at ho
    rw [htnext]
    exact h.invoiceOrderRefLt inv0 hi0 oidr ho
  · rw [htinv]
    unfold cancelOrderInvoices
    rw [List.map_map]
    have : ((fun inv => inv.invoiceId) ∘ cancelInv oid) =
        fun (inv : Invoice) => inv.invoiceId := by
      funext inv
      exact cancelInv_invoiceId oid inv
    rw [show ((·.invoiceId) ∘ cancelInv oid) = (fun (inv : Invoice) => inv.invoiceId)
      from this]
    exact h.invoiceIdNodup
  · intro inv hi hnc
    rw [htinv] at hi
    rcases List.mem_map.mp hi with ⟨inv0, hi0, rfl⟩
    have heq := cancelInv_eq_of_not_cancelled hnc
    rw [heq] at hnc ⊢
    have hold := h.sumOk inv0 hi0 hnc
    constructor
    · intro hm
      rw [itemSum, htitem]
      exact hold.1 hm
    · intro hm
      rw [itemSum, htitem]
      exact hold.2 hm
  · intro inv hi hr
    rw [htinv] at hi
    rcases List.mem_map.mp hi with ⟨inv0, hi0, rfl⟩
    rw [cancelInv_invoiceType] at hr
    rw [htitem, cancelInv_invoiceId]
    exact h.refundSingleItem inv0 hi0 hr
  · intro oidq
    rw [htinv]
    unfold cancelOrderInvoices
    rw [List.countP_map]
    calc s.invoices.countP (activeOrderInvoiceP oidq ∘ cancelInv oid)
        ≤ s.invoices.countP (activeOrderInvoiceP oidq) :=
          List.countP_mono_left (fun inv _ hact => activeOrderInvoiceP_cancelInv hact)
      _ ≤ 1 := h.activeOrderOnce oidq

/-- `update_order_status` preserves the invariant. -/
theorem inv_update_order_status {s t : State} (h : Inv s) {oid : Nat}
    {st : OrderStatus} (ht : update_order_status oid st s = .ok t) : Inv t := by
  unfold update_order_status at ht
  cases hfind : s.orders.find? (fun o => o.orderId == oid) with
  | none => rw [hfind] at ht; cases ht
  | some o =>
    rw [hfind] at ht
    injection ht with ht
    subst ht
    have hord : ∀ o' ∈ updateFirst (fun o => o.orderId == oid)
        (fun o => { o with status := st }) s.orders, o'.orderId < s.nextId :=
      forall_mem_updateFirst h.orderIdLt (fun x hx _ => h.orderIdLt x hx)
    by_cases hc : st = OrderStatus.cancelled
    · refine inv_cancel_sweep h oid _ ?_ rfl rfl hord h.claimIdLt
      dsimp only
      rw [if_pos hc]
    · refine h.rebuild ?_ rfl (le_refl _) hord h.claimIdLt
      dsimp only
      rw [if_neg hc]

/-- `cancel_order` preserves the invariant. -/
theorem inv_cancel_order {s t : State} (h : Inv s) {oid : Nat} {cid : String}
    (ht : cancel_order oid cid s = .ok t) : Inv t := by
  unfold cancel_order at ht
  cases hfind : s.orders.find? (fun o => o.orderId == oid && o.customerId == cid) with
  | none => rw [hfind] at ht; cases ht
  | some o =>
    rw [hfind] at ht
    dsimp only at ht
    by_cases h1 : o.status = OrderStatus.cancelled
    · rw [if_pos h1] at ht; cases ht
    · rw [if_neg h1] at ht
      by_cases h2 : o.status = OrderStatus.delivered
      · rw [if_pos h2] at ht; cases ht
      · rw [if_neg h2] at ht
        injection ht with ht
        subst ht
        refine inv_cancel_sweep h oid _ rfl rfl rfl ?_ h.claimIdLt
        exact forall_mem_updateFirst h.orderIdLt (fun x hx _ => h.orderIdLt x hx)

/-- When the update key is unique in the list, updating the first match is a
pointwise map. -/
theorem updateFirst_eq_map_of_unique {key : α → Nat} {l : List α}
    (hnd : (l.map key).Nodup) (k : Nat) (f : α → α) :
    updateFirst (fun y => key y == k) f l =
      l.map (fun y => if key y == k then f y else y) := by
  induction l with
  | nil => rfl
  | cons x xs ih =>
      rw [List.map_cons, List.nodup_cons] at hnd
      rw [updateFirst_cons, List.map_cons]
      by_cases hx : (key x == k) = true
      · rw [if_pos hx, if_pos hx]
        have hxs : xs.map (fun y => if key y == k then f y else y) = xs := by
          rw [show xs = xs.map id by simp]
          rw [List.map_map]
          refine List.map_congr_left (fun y hy => ?_)
          have hne : key y ≠ k := by
            intro hk
            refine hnd.1 ?_
            rw [← beq_iff_eq.mp hx] at hk
            exact hk ▸ List.mem_map_of_mem key (by simpa using hy)
          simp [hne]
        rw [hxs]
      · rw [if_neg hx, if_neg hx, ih hnd.2]

/-- Updating the single item of a refund invoice in place makes its item sum
the new amount. -/
theorem itemSumL_updateFirst_refund {items : List InvoiceItem} {n : Nat} {a : ℚ}
    (hone : (items.filter (fun it => it.invoiceId == n)).length = 1) :
    itemSumL (updateFirst (fun it => it.invoiceId == n)
      (fun it => { it with unitPrice := a, totalPrice := a }) items) n = a := by
  induction items with
  | nil => cases hone
  | cons x xs ih =>
      rw [updateFirst_cons]
      by_cases hx : (x.invoiceId == n) = true
      · rw [if_pos hx]
        have hfx : (({ x with unitPrice := a, totalPrice := a } :
            InvoiceItem).invoiceId == n) = true := hx
        rw [itemSumL_cons_eq hfx]
        have hlen : (xs.filter (fun it => it.invoiceId == n)).length = 0 := by
          rw [List.filter_cons, if_pos hx] at hone
          simpa using hone
        have hz : itemSumL xs n = 0 := by
          rw [itemSumL, List.length_eq_zero.mp hlen]
          rfl
        rw [hz]
        show a + 0 = a
        rw [add_zero]
      · rw [if_neg hx, itemSumL_cons_ne (by simpa using hx)]
        apply ih
        rw [List.filter_cons, if_neg hx] at hone
        exact hone

/-- The in-place item update keeps the item count of the invoice. -/
theorem length_filter_updateFirst_refund {items : List InvoiceItem} {n : Nat}
    {a : ℚ} :
    ((updateFirst (fun it => it.invoiceId == n)
      (fun it => { it with unitPrice := a, totalPrice := a }) items).filter
        (fun it => it.invoiceId == n)).length =
    (items.filter (fun it => it.invoiceId == n)).length := by
  induction items with
  | nil => rfl
  | cons x xs ih =>
      rw [updateFirst_cons]
      by_cases hx : (x.invoiceId == n) = true
      · have hfx : (({ x with unitPrice := a, totalPrice := a } :
            InvoiceItem).invoiceId == n) = true := hx
        rw [if_pos hx, List.filter_cons, List.filter_cons, if_pos hx, if_pos hfx]
        rfl
      · rw [if_neg hx, List.filter_cons, List.filter_cons, if_neg hx, if_neg hx, ih]

/-- Prepending a fresh REFUND invoice with its single item (both
refund-issuing paths) preserves the invariant. -/
theorem inv_refund_create {s : State} (h : Inv s) (t : State) (cid : Nat)
    (cust : String) (amt : ℚ)
    (htnext : t.nextId = s.nextId + 1)
    (htinv : t.invoices = refundInvoice s cid cust amt :: s.invoices)
    (htitem : t.invoiceItems = refundItem s amt :: s.invoiceItems)
    (hord : ∀ o ∈ t.orders, o.orderId < t.nextId)
    (hclaim : ∀ c ∈ t.claims, c.claimId < t.nextId) : Inv t := by
  have hRid : (refundInvoice s cid cust amt).invoiceId = s.nextId := rfl
  have hIid : (refundItem s amt).invoiceId = s.nextId := rfl
  refine ⟨?_, ?_, hord, hclaim, ?_, ?_, ?_, ?_, ?_⟩
  · intro inv hi
    rw [htinv] at hi
    rw [htnext]
    rcases List.mem_cons.mp hi with rfl | hi
    · rw [hRid]; omega
    · exact (h.invoiceIdLt inv hi).trans (by omega)
  · intro it hi
    rw [htitem] at hi
    rw [htnext]
    rcases List.mem_cons.mp hi with rfl | hi
    · rw [hIid]; omega
    · exact (h.itemIdLt it hi).trans (by omega)
  · intro inv hi oid ho
    rw [htinv] at hi
    rw [htnext]
    rcases List.mem_cons.mp hi with rfl | hi
    · cases ho
    · exact (h.invoiceOrderRefLt inv hi oid ho).trans (by omega)
  · rw [htinv, List.map_cons, List.nodup_cons]
    refine ⟨?_, h.invoiceIdNodup⟩
    intro hmem
    rcases List.mem_map.mp hmem with ⟨inv, hi, hid⟩
    have hid2 : inv.invoiceId = s.nextId := hid
    have := h.invoiceIdLt inv hi
    omega
  · intro inv hi hnc
    rw [htinv] at hi
    rcases List.mem_cons.mp hi with rfl | hi
    · constructor
      · intro habs; cases habs
      · intro _
        show amt = itemSum t s.nextId
        rw [itemSum, htitem, itemSumL_cons_eq (by simp [refundItem]),
          itemSumL_eq_zero (fun it hit => by
            have := h.itemIdLt it hit
            simp only [beq_eq_false_iff_ne, ne_eq]
            omega)]
        show amt = amt + 0
        ring
    · have hold := h.sumOk inv hi hnc
      have hsum : itemSumL t.invoiceItems inv.invoiceId =
          itemSumL s.invoiceItems inv.invoiceId := by
        rw [htitem]
        refine itemSumL_cons_ne ?_
        rw [hIid]
        have := h.invoiceIdLt inv hi
        simp only [beq_eq_false_iff_ne, ne_eq]
        omega
      exact ⟨fun hm => by rw [itemSum, hsum]; exact hold.1 hm,
        fun hm => by rw [itemSum, hsum]; exact hold.2 hm⟩
  · intro inv hi hr
    rw [htinv] at hi
    rw [htitem]
    rcases List.mem_cons.mp hi with rfl | hi
    · rw [List.filter_cons, if_pos (by simp [refundItem, refundInvoice]),
        List.filter_eq_nil_iff.mpr (fun it hit => by
          have := h.itemIdLt it hit
          rw [hRid]
          simp only [beq_iff_eq]
          omega)]
      rfl
    · rw [List.filter_cons, if_neg (by
        rw [hIid]
        have := h.invoiceIdLt inv hi
        simp only [beq_iff_eq]
        omega)]
      exact h.refundSingleItem inv hi hr
  · intro oid
    rw [htinv, List.countP_cons, if_neg (by
      unfold activeOrderInvoiceP refundInvoice
      simp)]
    simpa using h.activeOrderOnce oid

/-- `approve_claim` preserves the invariant. -/
theorem inv_approve_claim {s t : State} (h : Inv s) {cid : Nat}
    {amt : Option ℚ} {ad : String} (ht : approve_claim cid amt ad s = .ok t) :
    Inv t := by
  unfold approve_claim at ht
  cases hfc : s.claims.find? (fun c => c.claimId == cid) with
  | none => rw [hfc] at ht; cases ht
  | some claim =>
    rw [hfc] at ht
    dsimp only at ht
    have hclaims : ∀ c ∈ approvedClaims cid ad
        (resolveRefundAmount s claim amt) s.claims,
        c.claimId < s.nextId :=
      forall_mem_updateFirst h.claimIdLt (fun x hx _ => h.claimIdLt x hx)
    cases hfi : s.invoices.find? (refundLookupP cid) with
    | none =>
        rw [hfi] at ht
        injection ht with ht
        subst ht
        refine inv_refund_create h _ cid claim.customerId _ rfl rfl rfl
          (fun o ho => ?_) (fun c hc => ?_) <;> dsimp only
        · exact (h.orderIdLt o ho).trans (by omega)
        · exact (hclaims c hc).trans (by omega)
    | some existing =>
        rw [hfi] at ht
        dsimp only at ht
        have hex_mem := List.mem_of_find?_eq_some hfi
        have hex_p := List.find?_some hfi
        have hex_refund : existing.invoiceType = InvoiceType.refund := by
          unfold refundLookupP at hex_p
          simp only [Bool.and_eq_true, beq_iff_eq] at hex_p
          exact hex_p.2
        by_cases heq : existing.totalAmount = resolveRefundAmount s claim amt
        · rw [if_pos heq] at ht
          injection ht with ht
          subst ht
          exact h.rebuild rfl rfl (le_refl _) h.orderIdLt hclaims
        · rw [if_neg heq] at ht
          injection ht with ht
          subst ht
          set amtv := resolveRefundAmount s claim amt with hamtv
          have hmap := @updateFirst_eq_map_of_unique Invoice Invoice.invoiceId
            s.invoices h.invoiceIdNodup existing.invoiceId
            (fun inv => { inv with totalAmount := amtv })
          refine ⟨?_, ?_, ?_, ?_, ?_, ?_, ?_, ?_, ?_⟩ <;> dsimp only
          · rw [hmap]
            intro inv hi
            rcases List.mem_map.mp hi with ⟨inv0, hi0, rfl⟩
            have : (if inv0.invoiceId == existing.invoiceId
                then { inv0 with totalAmount := amtv } else inv0).invoiceId =
                inv0.invoiceId := by split <;> rfl
            rw [this]
            exact h.invoiceIdLt inv0 hi0
          · exact forall_mem_updateFirst h.itemIdLt
              (fun x hx _ => h.itemIdLt x hx)
          · exact h.orderIdLt
          · exact hclaims
          · rw [hmap]
            intro inv hi oid ho
            rcases List.mem_map.mp hi with ⟨inv0, hi0, rfl⟩
            have hoeq : (if inv0.invoiceId == existing.invoiceId
                then { inv0 with totalAmount := amtv } else inv0).orderId =
                inv0.orderId := by split <;> rfl
            rw [hoeq] at ho
            exact h.invoiceOrderRefLt inv0 hi0 oid ho
          · rw [hmap, List.map_map]
            have : (Invoice.invoiceId ∘ fun inv =>
                (if inv.invoiceId == existing.invoiceId
                  then { inv with totalAmount := amtv } else inv)) =
                fun (inv : Invoice) => inv.invoiceId := by
              funext inv
              show (if inv.invoiceId == existing.invoiceId
                then { inv with totalAmount := amtv } else inv).invoiceId =
                inv.invoiceId
              split <;> rfl
            rw [this]
            exact h.invoiceIdNodup
          · intro inv hi hnc
            rw [hmap] at hi
            rcases List.mem_map.mp hi with ⟨inv0, hi0, rfl⟩
            by_cases hid0 : (inv0.invoiceId == existing.invoiceId) = true
            · have hinv0 : inv0 = existing :=
                List.inj_on_of_nodup_map h.invoiceIdNodup hi0 hex_mem
                  (beq_iff_eq.mp hid0)
              subst hinv0
              rw [if_pos hid0] at hnc ⊢
              have hone := h.refundSingleItem inv0 hi0 hex_refund
              constructor
              · intro habs
                rw [show ({ inv0 with totalAmount := amtv } :
                    Invoice).invoiceType = inv0.invoiceType from rfl,
                  hex_refund] at habs
                cases habs
              · intro _
                show amtv = itemSum _ inv0.invoiceId
                rw [itemSum]
                show amtv = itemSumL (updateFirst
                  (fun it => it.invoiceId == inv0.invoiceId)
                  (fun it => { it with unitPrice := amtv, totalPrice := amtv })
                  s.invoiceItems) inv0.invoiceId
                rw [itemSumL_updateFirst_refund hone]
            · rw [if_neg hid0] at hnc ⊢
              have hold := h.sumOk inv0 hi0 hnc
              have hfil : (updateFirst
                  (fun it => it.invoiceId == existing.invoiceId)
                  (fun it => { it with unitPrice := amtv, totalPrice := amtv })
                  s.invoiceItems).filter
                    (fun it => it.invoiceId == inv0.invoiceId) =
                  s.invoiceItems.filter (fun it => it.invoiceId == inv0.invoiceId) := by
                refine filter_updateFirst_other (fun it hpit => ?_)
                simp only [beq_iff_eq] at hpit
                constructor
                · simp only [beq_eq_false_iff_ne, ne_eq]
                  intro hcontra
                  exact hid0 (by rw [← hcontra, hpit]; exact beq_self_eq_true _)
                · show (it.invoiceId == inv0.invoiceId) = false
                  simp only [beq_eq_false_iff_ne, ne_eq]
                  intro hcontra
                  exact hid0 (by rw [← hcontra, hpit]; exact beq_self_eq_true _)
              refine ⟨fun hm => ?_, fun hm => ?_⟩
              · rw [itemSum]
                show inv0.totalAmount = |itemSumL _ inv0.invoiceId|
                rw [itemSumL, hfil]
                exact hold.1 hm
              · rw [itemSum]
                show inv0.totalAmount = itemSumL _ inv0.invoiceId
                rw [itemSumL, hfil]
                exact hold.2 hm
          · intro inv hi hr
            rw [hmap] at hi
            rcases List.mem_map.mp hi with ⟨inv0, hi0, rfl⟩
            by_cases hid0 : (inv0.invoiceId == existing.invoiceId) = true
            · have hinv0 : inv0 = existing :=
                List.inj_on_of_nodup_map h.invoiceIdNodup hi0 hex_mem
                  (beq_iff_eq.mp hid0)
              subst hinv0
              rw [if_pos hid0]
              have hone := h.refundSingleItem inv0 hi0 hex_refund
              show ((updateFirst (fun it => it.invoiceId == inv0.invoiceId)
                  (fun it => { it with unitPrice := amtv, totalPrice := amtv })
                  s.invoiceItems).filter
                    (fun it => it.invoiceId == inv0.invoiceId)).length = 1
              rw [length_filter_updateFirst_refund]
              exact hone
            · rw [if_neg hid0] at hr ⊢
              have hfil : (updateFirst
                  (fun it => it.invoiceId == existing.invoiceId)
                  (fun it => { it with unitPrice := amtv, totalPrice := amtv })
                  s.invoiceItems).filter
                    (fun it => it.invoiceId == inv0.invoiceId) =
                  s.invoiceItems.filter (fun it => it.invoiceId == inv0.invoiceId) := by
                refine filter_updateFirst_other (fun it hpit => ?_)
                simp only [beq_iff_eq] at hpit
                constructor
                · simp only [beq_eq_false_iff_ne, ne_eq]
                  intro hcontra
                  exact hid0 (by rw [← hcontra, hpit]; exact beq_self_eq_true _)
                · show (it.invoiceId == inv0.invoiceId) = false
                  simp only [beq_eq_false_iff_ne, ne_eq]
                  intro hcontra
                  exact hid0 (by rw [← hcontra, hpit]; exact beq_self_eq_true _)
              show ((updateFirst (fun it => it.invoiceId == existing.invoiceId)
                  (fun it => { it with unitPrice := amtv, totalPrice := amtv })
                  s.invoiceItems).filter
                    (fun it => it.invoiceId == inv0.invoiceId)).length = 1
              rw [hfil]
              exact h.refundSingleItem inv0 hi0 hr
          · intro oid
            refine le_trans (le_of_eq (countP_updateFirst_congr (fun inv => ?_)))
              (h.activeOrderOnce oid)
            show activeOrderInvoiceP oid { inv with totalAmount := amtv } =
              activeOrderInvoiceP oid inv
            rfl

/-- `process_claim_ai` preserves the invariant. -/
theorem inv_process_claim_ai {s : State} (h : Inv s) (cid : Nat)
    (outcome : Except String ClaimResult) :
    Inv (process_claim_ai cid outcome s) := by
  unfold process_claim_ai
  cases hfc : s.claims.find? (fun c => c.claimId == cid) with
  | none => exact h
  | some claim =>
    cases hfp : s.claimProcessings.find? (fun p => p.claimId == cid) with
    | none => exact h
    | some proc =>
      cases hoc : process_claim outcome with
      | none =>
          exact h.rebuild rfl rfl (le_refl _) h.orderIdLt
            (forall_mem_updateFirst h.claimIdLt (fun x hx _ => h.claimIdLt x hx))
      | some raw =>
          dsimp only
          by_cases hd1 : (clampDecision raw.decision == "manual_review_needed") = true
          · rw [if_pos hd1]
            exact h.rebuild rfl rfl (le_refl _) h.orderIdLt
              (forall_mem_updateFirst h.claimIdLt (fun x hx _ => h.claimIdLt x hx))
          · rw [if_neg hd1]
            by_cases hd2 : (clampDecision raw.decision == "approved") = true
            · rw [if_pos hd2]
              cases hfi : s.invoices.find? (refundLookupP cid) with
              | some existing =>
                  exact h.rebuild rfl rfl (le_refl _) h.orderIdLt
                    (forall_mem_updateFirst h.claimIdLt
                      (fun x hx _ => h.claimIdLt x hx))
              | none =>
                  refine inv_refund_create h _ cid claim.customerId _ rfl rfl rfl
                    (fun o ho => ?_) (fun c hc => ?_) <;> dsimp only
                  · exact (h.orderIdLt o ho).trans (by omega)
                  · have hstep : ∀ x ∈ updateFirst (fun c => c.claimId == cid)
                        (fun c =>
                          { c with
                            status := ClaimStatus.approved,
                            handledBy := some "AI_AGENT" }) s.claims,
                        x.claimId < s.nextId :=
                      forall_mem_updateFirst h.claimIdLt
                        (fun x hx _ => h.claimIdLt x hx)
                    have hstep2 : ∀ x ∈ updateFirst (fun c => c.claimId == cid)
                        (fun c =>
                          { c with
                            creditAmount :=
                              some (computeDefaultRefund s claim.orderId) })
                        (updateFirst (fun c => c.claimId == cid)
                          (fun c =>
                            { c with
                              status := ClaimStatus.approved,
                              handledBy := some "AI_AGENT" }) s.claims),
                        x.claimId < s.nextId :=
                      forall_mem_updateFirst hstep (fun x hx _ => hstep x hx)
                    exact (hstep2 c hc).trans (by omega)
            · rw [if_neg hd2]
              exact h.rebuild rfl rfl (le_refl _) h.orderIdLt
                (forall_mem_updateFirst h.claimIdLt
                  (fun x hx _ => h.claimIdLt x hx))

theorem regenItems_id {s : State} {oid lid : Nat} {code : String} :
    ∀ it ∈ regenItems s oid lid code, it.invoiceId = s.nextId := by
  intro it hit
  rcases List.mem_map.mp hit with ⟨lp, _, rfl⟩
  rfl

theorem regenItems_sum (s : State) (oid lid : Nat) (code : String) :
    itemSumL (regenItems s oid lid code) s.nextId =
      regenTotal s oid lid code := by
  rw [itemSumL_all_eq (fun it hit => by simp [regenItems_id it hit])]
  simp [regenItems, regenTotal, List.map_map]
  rfl

/-- The rows surviving the ORDER-invoice cancellation, tracked back to their
pre-image. -/
theorem cancelActiveOrderInvoice_mem {oid : Nat} {invoices : List Invoice} :
    ∀ inv ∈ cancelActiveOrderInvoice oid invoices,
      ∃ x ∈ invoices, inv.invoiceId = x.invoiceId ∧
        inv.invoiceType = x.invoiceType ∧ inv.orderId = x.orderId ∧
        inv.totalAmount = x.totalAmount ∧
        (inv.status ≠ InvoiceStatus.cancelled → inv = x) := by
  intro inv hi
  rcases mem_updateFirst hi with hi' | ⟨x, hx, hpx, rfl⟩
  · exact ⟨inv, hi', rfl, rfl, rfl, rfl, fun _ => rfl⟩
  · exact ⟨x, hx, rfl, rfl, rfl, rfl, fun hnc => absurd rfl hnc⟩

theorem cancelActiveOrderInvoice_ids (oid : Nat) (invoices : List Invoice) :
    (cancelActiveOrderInvoice oid invoices).map (·.invoiceId) =
      invoices.map (·.invoiceId) :=
  map_updateFirst_of_preserve (fun _ => rfl)

/-- Invariant preservation core for substitution without a price change. -/
theorem inv_replace_nomod {s : State} (h : Inv s) {oid lid : Nat}
    {code cust : String} (hoid_lt : oid < s.nextId) (t : State)
    (htnext : t.nextId = s.nextId + 1)
    (htinv : t.invoices = regenInvoice s oid lid code cust ::
      cancelActiveOrderInvoice oid s.invoices)
    (htitem : t.invoiceItems = regenItems s oid lid code ++ s.invoiceItems)
    (hord : ∀ o ∈ t.orders, o.orderId < t.nextId)
    (hclaim : ∀ c ∈ t.claims, c.claimId < t.nextId) : Inv t := by
  have hRid : (regenInvoice s oid lid code cust).invoiceId = s.nextId := rfl
  refine ⟨?_, ?_, hord, hclaim, ?_, ?_, ?_, ?_, ?_⟩
  · intro inv hi
    rw [htinv] at hi
    rw [htnext]
    rcases List.mem_cons.mp hi with rfl | hi
    · rw [hRid]; omega
    · rcases cancelActiveOrderInvoice_mem inv hi with ⟨x, hx, hid, _⟩
      rw [hid]
      exact (h.invoiceIdLt x hx).trans (by omega)
  · intro it hi
    rw [htitem] at hi
    rw [htnext]
    rcases List.mem_append.mp hi with hi | hi
    · rw [regenItems_id it hi]; omega
    · exact (h.itemIdLt it hi).trans (by omega)
  · intro inv hi oidr ho
    rw [htinv] at hi
    rw [htnext]
    rcases List.mem_cons.mp hi with rfl | hi
    · cases ho
      omega
    · rcases cancelActiveOrderInvoice_mem inv hi with ⟨x, hx, _, _, hor, _⟩
      rw [hor] at ho
      exact (h.invoiceOrderRefLt x hx oidr ho).trans (by omega)
  · rw [htinv, List.map_cons, cancelActiveOrderInvoice_ids, List.nodup_cons]
    refine ⟨?_, h.invoiceIdNodup⟩
    intro hmem
    rcases List.mem_map.mp hmem with ⟨inv, hi, hid⟩
    have hid2 : inv.invoiceId = s.nextId := hid
    have := h.invoiceIdLt inv hi
    omega
  · intro inv hi hnc
    rw [htinv] at hi
    rcases List.mem_cons.mp hi with rfl | hi
    · constructor
      · intro habs; cases habs
      · intro _
        show regenTotal s oid lid code = itemSum t s.nextId
        rw [itemSum, htitem, itemSumL_append, regenItems_sum,
          itemSumL_eq_zero (fun it hit => by
            have := h.itemIdLt it hit
            simp only [beq_eq_false_iff_ne, ne_eq]
            omega), add_zero]
    · rcases cancelActiveOrderInvoice_mem inv hi with ⟨x, hx, hid, _, _, _, hobs⟩
      have hix := hobs hnc
      subst hix
      have hold := h.sumOk inv hx hnc
      have hsum : itemSumL t.invoiceItems inv.invoiceId =
          itemSumL s.invoiceItems inv.invoiceId := by
        rw [htitem]
        refine itemSumL_append_left_ne (fun it hit => ?_)
        rw [regenItems_id it hit]
        have := h.invoiceIdLt inv hx
        simp only [beq_eq_false_iff_ne, ne_eq]
        omega
      exact ⟨fun hm => by rw [itemSum, hsum]; exact hold.1 hm,
        fun hm => by rw [itemSum, hsum]; exact hold.2 hm⟩
  · intro inv hi hr
    rw [htinv] at hi
    rcases List.mem_cons.mp hi with rfl | hi
    · cases hr
    · rcases cancelActiveOrderInvoice_mem inv hi with ⟨x, hx, hid, hty, _, _, _⟩
      rw [htitem, hid, List.filter_append, List.filter_eq_nil_iff.mpr
        (fun it hit => by
          rw [regenItems_id it hit]
          have := h.invoiceIdLt x hx
          simp only [beq_iff_eq]
          omega), List.nil_append]
      exact h.refundSingleItem x hx (hty ▸ hr)
  · intro oidq
    rw [htinv, List.countP_cons]
    by_cases hq : oidq = oid
    · subst hq
      have hz : (cancelActiveOrderInvoice oidq s.invoices).countP
          (activeOrderInvoiceP oidq) = 0 := by
        refine countP_updateFirst_of_le_one (fun x hpx => ?_)
          (h.activeOrderOnce oidq)
        unfold activeOrderInvoiceP
        simp
      rw [hz]
      split <;> omega
    · have hle : (cancelActiveOrderInvoice oid s.invoices).countP
          (activeOrderInvoiceP oidq) ≤ 1 := by
        refine le_trans (countP_updateFirst_le (fun x hax => ?_))
          (h.activeOrderOnce oidq)
        unfold activeOrderInvoiceP at hax
        simp at hax
      have hz : activeOrderInvoiceP oidq (regenInvoice s oid lid code cust) =
          false := by
        unfold activeOrderInvoiceP regenInvoice
        simp only [Bool.and_eq_false_iff]
        left; left
        simp only [beq_eq_false_iff_ne, ne_eq, Option.some.injEq]
        exact fun hh => hq hh.symm
      rw [hz]
      simpa using hle

/-- Invariant preservation core for substitution with a price change. -/
theorem inv_replace_mod {s : State} (h : Inv s) {oid lid : Nat}
    {code cust : String} {qty ud pd : ℚ} (hoid_lt : oid < s.nextId) (t : State)
    (htnext : t.nextId = s.nextId + 2)
    (htinv : t.invoices = modInvoice s oid cust pd ::
      regenInvoice s oid lid code cust ::
      cancelActiveOrderInvoice oid s.invoices)
    (htitem : t.invoiceItems = modItem s code qty ud pd ::
      (regenItems s oid lid code ++ s.invoiceItems))
    (hord : ∀ o ∈ t.orders, o.orderId < t.nextId)
    (hclaim : ∀ c ∈ t.claims, c.claimId < t.nextId) : Inv t := by
  have hRid : (regenInvoice s oid lid code cust).invoiceId = s.nextId := rfl
  have hMid : (modInvoice s oid cust pd).invoiceId = s.nextId + 1 := rfl
  have hMit : (modItem s code qty ud pd).invoiceId = s.nextId + 1 := rfl
  refine ⟨?_, ?_, hord, hclaim, ?_, ?_, ?_, ?_, ?_⟩
  · intro inv hi
    rw [htinv] at hi
    rw [htnext]
    rcases List.mem_cons.mp hi with rfl | hi
    · rw [hMid]; omega
    rcases List.mem_cons.mp hi with rfl | hi
    · rw [hRid]; omega
    rcases cancelActiveOrderInvoice_mem inv hi with ⟨x, hx, hid, _⟩
    rw [hid]
    exact (h.invoiceIdLt x hx).trans (by omega)
  · intro it hi
    rw [htitem] at hi
    rw [htnext]
    rcases List.mem_cons.mp hi with rfl | hi
    · rw [hMit]; omega
    rcases List.mem_append.mp hi with hi | hi
    · rw [regenItems_id it hi]; omega
    · exact (h.itemIdLt it hi).trans (by omega)
  · intro inv hi oidr ho
    rw [htinv] at hi
    rw [htnext]
    rcases List.mem_cons.mp hi with rfl | hi
    · cases ho; omega
    rcases List.mem_cons.mp hi with rfl | hi
    · cases ho; omega
    rcases cancelActiveOrderInvoice_mem inv hi with ⟨x, hx, _, _, hor, _⟩
    rw [hor] at ho
    exact (h.invoiceOrderRefLt x hx oidr ho).trans (by omega)
  · rw [htinv, List.map_cons, List.map_cons, cancelActiveOrderInvoice_ids,
      List.nodup_cons, List.nodup_cons]
    refine ⟨?_, ?_, h.invoiceIdNodup⟩
    · intro hmem
      rcases List.mem_cons.mp hmem with hh | hmem
      · have hh2 : (s.nextId + 1 : Nat) = s.nextId := hh
        omega
      · rcases List.mem_map.mp hmem with ⟨inv, hi, hid⟩
        have hid2 : inv.invoiceId = s.nextId + 1 := hid
        have := h.invoiceIdLt inv hi
        omega
    · intro hmem
      rcases List.mem_map.mp hmem with ⟨inv, hi, hid⟩
      have hid2 : inv.invoiceId = s.nextId := hid
      have := h.invoiceIdLt inv hi
      omega
  · intro inv hi hnc
    rw [htinv] at hi
    rcases List.mem_cons.mp hi with rfl | hi
    · constructor
      · intro _
        show |pd| = |itemSum t (s.nextId + 1)|
        rw [itemSum, htitem, itemSumL_cons_eq (by simp [modItem]),
          itemSumL_append,
          itemSumL_eq_zero (fun it hit => by
            rw [regenItems_id it hit]
            simp only [beq_eq_false_iff_ne, ne_eq]
            omega),
          itemSumL_eq_zero (fun it hit => by
            have := h.itemIdLt it hit
            simp only [beq_eq_false_iff_ne, ne_eq]
            omega)]
        show |pd| = |pd + (0 + 0)|
        rw [add_zero, add_zero]
      · intro habs
        exact absurd rfl habs
    rcases List.mem_cons.mp hi with rfl | hi
    · constructor
      · intro habs; cases habs
      · intro _
        show regenTotal s oid lid code = itemSum t s.nextId
        rw [itemSum, htitem, itemSumL_cons_ne (by
            rw [hMit]
            simp only [beq_eq_false_iff_ne, ne_eq]
            omega),
          itemSumL_append, regenItems_sum,
          itemSumL_eq_zero (fun it hit => by
            have := h.itemIdLt it hit
            simp only [beq_eq_false_iff_ne, ne_eq]
            omega), add_zero]
    · rcases cancelActiveOrderInvoice_mem inv hi with ⟨x, hx, hid, _, _, _, hobs⟩
      have hix := hobs hnc
      subst hix
      have hold := h.sumOk inv hx hnc
      have hsum : itemSumL t.invoiceItems inv.invoiceId =
          itemSumL s.invoiceItems inv.invoiceId := by
        rw [htitem]
        rw [itemSumL_cons_ne (by
          rw [hMit]
          have := h.invoiceIdLt inv hx
          simp only [beq_eq_false_iff_ne, ne_eq]
          omega)]
        refine itemSumL_append_left_ne (fun it hit => ?_)
        rw [regenItems_id it hit]
        have := h.invoiceIdLt inv hx
        simp only [beq_eq_false_iff_ne, ne_eq]
        omega
      exact ⟨fun hm => by rw [itemSum, hsum]; exact hold.1 hm,
        fun hm => by rw [itemSum, hsum]; exact hold.2 hm⟩
  · intro inv hi hr
    rw [htinv] at hi
    rcases List.mem_cons.mp hi with rfl | hi
    · cases hr
    rcases List.mem_cons.mp hi with rfl | hi
    · cases hr
    rcases cancelActiveOrderInvoice_mem inv hi with ⟨x, hx, hid, hty, _, _, _⟩
    rw [htitem, hid, List.filter_cons, if_neg (by
        rw [hMit]
        have := h.invoiceIdLt x hx
        simp only [beq_iff_eq]
        omega),
      List.filter_append, List.filter_eq_nil_iff.mpr (fun it hit => by
        rw [regenItems_id it hit]
        have := h.invoiceIdLt x hx
        simp only [beq_iff_eq]
        omega), List.nil_append]
    exact h.refundSingleItem x hx (hty ▸ hr)
  · intro oidq
    rw [htinv, List.countP_cons, List.countP_cons]
    have hmodz : activeOrderInvoiceP oidq (modInvoice s oid cust pd) = false := by
      unfold activeOrderInvoiceP modInvoice
      simp
    rw [hmodz]
    rw [show (if false = true then 1 else 0) = 0 from rfl, Nat.add_zero]
    by_cases hq : oidq = oid
    · subst hq
      have hz : (cancelActiveOrderInvoice oidq s.invoices).countP
          (activeOrderInvoiceP oidq) = 0 := by
        refine countP_updateFirst_of_le_one (fun x hpx => ?_)
          (h.activeOrderOnce oidq)
        unfold activeOrderInvoiceP
        simp
      rw [hz]
      split <;> omega
    · have hle : (cancelActiveOrderInvoice oid s.invoices).countP
          (activeOrderInvoiceP oidq) ≤ 1 := by
        refine le_trans (countP_updateFirst_le (fun x hax => ?_))
          (h.activeOrderOnce oidq)
        unfold activeOrderInvoiceP at hax
        simp at hax
      have hz : activeOrderInvoiceP oidq (regenInvoice s oid lid code cust) =
          false := by
        unfold activeOrderInvoiceP regenInvoice
        simp only [Bool.and_eq_false_iff]
        left; left
        simp only [beq_eq_false_iff_ne, ne_eq, Option.some.injEq]
        exact fun hh => hq hh.symm
      rw [hz]
      simpa using hle

/-- `replace_product_with_substitute` preserves the invariant. -/
theorem inv_replace {s t : State} (h : Inv s) {oid lid : Nat} {code : String}
    (ht : replace_product_with_substitute oid lid code s = .ok t) : Inv t := by
  unfold replace_product_with_substitute at ht
  cases hfo : s.orders.find? (fun o => o.orderId == oid) with
  | none => rw [hfo] at ht; cases ht
  | some order =>
    rw [hfo] at ht
    dsimp only at ht
    cases hfl : s.orderLines.find?
        (fun l => l.orderId == oid && l.lineId == lid) with
    | none => rw [hfl] at ht; cases ht
    | some orderLine =>
      rw [hfl] at ht
      dsimp only at ht
      cases hfs : s.orderSubstitutes.find? (substituteLookupP oid lid code) with
      | none => rw [hfs] at ht; cases ht
      | some osub =>
        rw [hfs] at ht
        dsimp only at ht
        cases hfsp : findProduct? s code with
        | none => rw [hfsp] at ht; cases ht
        | some subProduct =>
          rw [hfsp] at ht
          dsimp only at ht
          cases hfop : findProduct? s orderLine.productCode with
          | none => rw [hfop] at ht; cases ht
          | some oldProduct =>
            rw [hfop] at ht
            dsimp only at ht
            have hoid_lt : oid < s.nextId := by
              have hmem := List.mem_of_find?_eq_some hfo
              have hp := List.find?_some hfo
              have heq : order.orderId = oid := beq_iff_eq.mp hp
              exact heq ▸ h.orderIdLt order hmem
            by_cases hpd :
                (subProduct.price - oldProduct.price) * orderLine.orderedQty = 0
            · rw [if_pos hpd] at ht
              injection ht with ht
              subst ht
              refine inv_replace_nomod h hoid_lt _ rfl rfl rfl
                (fun o ho => ?_) (fun c hc => ?_) <;> dsimp only
              · exact (h.orderIdLt o ho).trans (by omega)
              · exact (h.claimIdLt c hc).trans (by omega)
            · rw [if_neg hpd] at ht
              injection ht with ht
              subst ht
              refine inv_replace_mod h hoid_lt _ rfl rfl rfl
                (fun o ho => ?_) (fun c hc => ?_) <;> dsimp only
              · exact (h.orderIdLt o ho).trans (by omega)
              · exact (h.claimIdLt c hc).trans (by omega)

theorem inv_initState (products : List Product) : Inv (initState products) := by
  constructor <;> simp [initState, SumConsistentAmended]

/-- Every request preserves the invariant (a failing handler rolls back). -/
theorem inv_applyOp {s : State} (h : Inv s) (op : Op) : Inv (applyOp s op) := by
  cases op with
  | place cid cart =>
      unfold applyOp runOp
      dsimp only
      cases hr : place_order cid cart s with
      | ok t => exact inv_place_order h hr
      | error e => exact h
  | replace oid lid code =>
      unfold applyOp runOp
      dsimp only
      cases hr : replace_product_with_substitute oid lid code s with
      | ok t => exact inv_replace h hr
      | error e => exact h
  | updateStatus oid st =>
      unfold applyOp runOp
      dsimp only
      cases hr : update_order_status oid st s with
      | ok t => exact inv_update_order_status h hr
      | error e => exact h
  | cancel oid cid =>
      unfold applyOp runOp
      dsimp only
      cases hr : cancel_order oid cid s with
      | ok t => exact inv_cancel_order h hr
      | error e => exact h
  | intake cid oid =>
      unfold applyOp runOp
      dsimp only
      cases hr : create_claim cid oid s with
      | ok t => exact inv_create_claim h hr
      | error e => exact h
  | intakeGeneric oid =>
      unfold applyOp runOp
      dsimp only
      cases hr : create_claim_generic oid s with
      | ok t => exact inv_create_claim_generic h hr
      | error e => exact h
  | approve cid amt ad =>
      unfold applyOp runOp
      dsimp only
      cases hr : approve_claim cid amt ad s with
      | ok t => exact inv_approve_claim h hr
      | error e => exact h
  | aiProcess cid outcome =>
      exact inv_process_claim_ai h cid outcome

theorem inv_foldl {s : State} (h : Inv s) (ops : List Op) :
    Inv (ops.foldl applyOp s) := by
  induction ops generalizing s with
  | nil => exact h
  | cons op ops ih => exact ih (inv_applyOp h op)

/-- Every store reachable by a request sequence satisfies the invariant. -/
theorem inv_reach (products : List Product) (ops : List Op) :
    Inv (reach products ops) :=
  inv_foldl (inv_initState products) ops

instance except_decEq {ε α : Type} [DecidableEq ε] [DecidableEq α] :
    DecidableEq (Except ε α)
  | .ok x, .ok y =>
      if h : x = y then .isTrue (congrArg Except.ok h)
      else .isFalse (fun hc => h (Except.ok.inj hc))
  | .error x, .error y =>
      if h : x = y then .isTrue (congrArg Except.error h)
      else .isFalse (fun hc => h (Except.error.inj hc))
  | .ok _, .error _ => .isFalse (fun hc => Except.noConfusion hc)
  | .error _, .ok _ => .isFalse (fun hc => Except.noConfusion hc)

theorem length_updateFirst (p : α → Bool) (f : α → α) (l : List α) :
    (updateFirst p f l).length = l.length := by
  induction l with
  | nil => rfl
  | cons x xs ih =>
      rw [updateFirst_cons]
      by_cases hx : p x
      · rw [if_pos hx]; rfl
      · rw [if_neg hx, List.length_cons, List.length_cons, ih]

/-- An element of the list survives `updateFirst` either untouched or as its
image. -/
theorem mem_updateFirst_of_mem {p : α → Bool} {f : α → α} {l : List α} {x : α}
    (hx : x ∈ l) : x ∈ updateFirst p f l ∨ f x ∈ updateFirst p f l := by
  induction l with
  | nil => cases hx
  | cons y ys ih =>
      rw [updateFirst_cons]
      by_cases hy : p y
      · rw [if_pos hy]
        rcases List.mem_cons.mp hx with rfl | hx
        · right; exact List.mem_cons_self _ _
        · left; exact List.mem_cons_of_mem _ hx
      · rw [if_neg hy]
        rcases List.mem_cons.mp hx with rfl | hx
        · left; exact List.mem_cons_self _ _
        · rcases ih hx with h | h
          · left; exact List.mem_cons_of_mem _ h
          · right; exact List.mem_cons_of_mem _ h

/-- The state produced by `approve_claim` when no REFUND invoice exists yet. -/
theorem approve_claim_create {s : State} {cid : Nat} {a : ℚ} {ad : String}
    {claim : Claim}
    (hfc : s.claims.find? (fun c => c.claimId == cid) = some claim)
    (hno : s.invoices.find? (refundLookupP cid) = none) :
    approve_claim cid (some a) ad s = .ok
      { s with
        nextId := s.nextId + 1,
        claims := approvedClaims cid ad a s.claims,
        claimProcessings := reviewedProcessings cid ad s.claimProcessings,
        invoices := refundInvoice s cid claim.customerId a :: s.invoices,
        invoiceItems := refundItem s a :: s.invoiceItems } := by
  unfold approve_claim
  rw [hfc]
  dsimp only
  rw [hno]
  rfl

/-- The state produced by `approve_claim` when a REFUND invoice already
exists and the amount differs: the invoice and its first item are updated in
place, nothing is created. -/
theorem approve_claim_update {s : State} {cid : Nat} {a : ℚ} {ad : String}
    {claim : Claim} {existing : Invoice}
    (hfc : s.claims.find? (fun c => c.claimId == cid) = some claim)
    (hfi : s.invoices.find? (refundLookupP cid) = some existing)
    (hne : existing.totalAmount ≠ a) :
    approve_claim cid (some a) ad s = .ok
      { s with
        claims := approvedClaims cid ad a s.claims,
        claimProcessings := reviewedProcessings cid ad s.claimProcessings,
        invoices := updateFirst (fun inv => inv.invoiceId == existing.invoiceId)
          (fun inv => { inv with totalAmount := a }) s.invoices,
        invoiceItems := updateFirst (fun it => it.invoiceId == existing.invoiceId)
          (fun it => { it with unitPrice := a, totalPrice := a })
          s.invoiceItems } := by
  unfold approve_claim
  rw [hfc]
  dsimp only
  rw [hfi]
  dsimp only
  rw [show resolveRefundAmount s claim (some a) = a from rfl]
  rw [if_neg hne]

/-- The state produced by `replace_product_with_substitute` when every lookup
succeeds and the price difference is non-zero: the line is rewritten, the
substitute is flagged used, the active ORDER invoice is cancelled, and a
regenerated ORDER invoice plus a MODIFICATION invoice (with items) are
prepended. -/
theorem replace_eval {s : State} {oid lid : Nat} {code : String}
    {order : Order} {orderLine : OrderLine} {osub : OrderSubstitute}
    {subProduct oldProduct : Product}
    (h1 : s.orders.find? (fun o => o.orderId == oid) = some order)
    (h2 : s.orderLines.find? (fun l => l.orderId == oid && l.lineId == lid) = some orderLine)
    (h3 : s.orderSubstitutes.find? (substituteLookupP oid lid code) = some osub)
    (h4 : findProduct? s code = some subProduct)
    (h5 : findProduct? s orderLine.productCode = some oldProduct)
    (h6 : (subProduct.price - oldProduct.price) * orderLine.orderedQty ≠ 0) :
    replace_product_with_substitute oid lid code s = .ok
      { s with
        nextId := s.nextId + 2,
        orderLines := replacedLines oid lid code s.orderLines,
        orderSubstitutes := usedSubs oid lid code s.orderSubstitutes,
        invoices := modInvoice s oid order.customerId
            ((subProduct.price - oldProduct.price) * orderLine.orderedQty) ::
          regenInvoice s oid lid code order.customerId ::
          cancelActiveOrderInvoice oid s.invoices,
        invoiceItems := modItem s code orderLine.orderedQty
            (subProduct.price - oldProduct.price)
            ((subProduct.price - oldProduct.price) * orderLine.orderedQty) ::
          (regenItems s oid lid code ++ s.invoiceItems) } := by
  unfold replace_product_with_substitute
  rw [h1]
  dsimp only
  rw [h2]
  dsimp only
  rw [h3]
  dsimp only
  rw [h4]
  dsimp only
  rw [h5]
  dsimp only
  rw [if_neg h6]

/-! Concrete data for counterexamples and witnesses. -/

/-- Catalog with a dearer product "A" (2.00) and a cheaper product "B" (1.00). -/
def cheaperSubProducts : List Product :=
  [{ productCode := "A", price := 2 }, { productCode := "B", price := 1 }]

/-- A cart holding 1 × "A" with customer-selected substitute "B". -/
def cheaperSubCart : List CartItem :=
  [{ productCode := "A"
     quantity := 1
     substitutes := [{ substituteProductCode := "B", priority := 1 }] }]

/-- Place the order, then substitute "B" in: the substitute is *cheaper*
than the original product. -/
def cheaperSubOps : List Op :=
  [.place "c" cheaperSubCart, .replace 0 1 "B"]

/-- The MODIFICATION invoice produced by the cheaper substitution: header
total 1.00, while its single item carries the signed difference −1.00. -/
def cheaperSubModInvoice : Invoice :=
  { invoiceId := 4, orderId := some 0, claimId := none, customerId := "c",
    invoiceType := .modification, status := .pending, totalAmount := 1,
    taxAmount := 6/25 }

def cheaperSubRegenInvoice : Invoice :=
  { invoiceId := 3, orderId := some 0, claimId := none, customerId := "c",
    invoiceType := .order, status := .pending, totalAmount := 1,
    taxAmount := 6/25 }

def cheaperSubFirstInvoice : Invoice :=
  { invoiceId := 2, orderId := some 0, claimId := none, customerId := "c",
    invoiceType := .order, status := .cancelled, totalAmount := 2,
    taxAmount := 12/25 }

def cheaperSubReplacedLine : OrderLine :=
  { lineId := 1, orderId := 0, productCode := "B", orderedQty := 1,
    lineStatus := .replaced }

def cheaperSubUsedSub : OrderSubstitute :=
  { orderId := 0, lineId := 1, substituteProductCode := "B", priority := 1,
    isUsed := true }

def cheaperSubModItem : InvoiceItem :=
  { invoiceId := 4, productCode := some "B", quantity := 1, unitPrice := -1,
    totalPrice := -1 }

def cheaperSubRegenItem : InvoiceItem :=
  { invoiceId := 3, productCode := some "B", quantity := 1, unitPrice := 1,
    totalPrice := 1 }

def cheaperSubFirstItem : InvoiceItem :=
  { invoiceId := 2, productCode := some "A", quantity := 1, unitPrice := 2,
    totalPrice := 2 }

/-- The original ORDER invoice as first created, still PENDING. -/
def cheaperSubFirstInvoiceActive : Invoice :=
  { invoiceId := 2, orderId := some 0, claimId := none, customerId := "c",
    invoiceType := .order, status := .pending, totalAmount := 2,
    taxAmount := 12/25 }

/-- The store right after the order is placed, before the substitution. -/
def cheaperSubMid : State :=
  { nextId := 3
    products := cheaperSubProducts
    orders := [{ orderId := 0, customerId := "c", status := .placed }]
    orderLines := [{ lineId := 1, orderId := 0, productCode := "A", orderedQty := 1, lineStatus := .ok }]
    orderSubstitutes := [{ orderId := 0, lineId := 1, substituteProductCode := "B", priority := 1, isUsed := false }]
    invoices := [cheaperSubFirstInvoiceActive]
    invoiceItems := [cheaperSubFirstItem]
    claims := []
    claimProcessings := [] }

/-- The store after `cheaperSubOps`, written out. -/
def cheaperSubFinal : State :=
  { nextId := 5
    products := cheaperSubProducts
    orders := [{ orderId := 0, customerId := "c", status := .placed }]
    orderLines := [cheaperSubReplacedLine]
    orderSubstitutes := [cheaperSubUsedSub]
    invoices := [cheaperSubModInvoice, cheaperSubRegenInvoice,
      cheaperSubFirstInvoice]
    invoiceItems := [cheaperSubModItem, cheaperSubRegenItem,
      cheaperSubFirstItem]
    claims := []
    claimProcessings := [] }

theorem cheaperSub_place :
    place_order "c" cheaperSubCart (initState cheaperSubProducts) =
      .ok cheaperSubMid := by
  norm_num +decide [place_order, initState, placeInvoiceId, keptItems, findProduct?,
    placeLines, placeSubs, placeInvoice, placeItems, placeTotal, vatRate,
    List.enum, List.enumFrom, List.flatMap, List.find?, List.filterMap,
    cheaperSubMid, cheaperSubProducts, cheaperSubCart,
    cheaperSubFirstInvoiceActive, cheaperSubFirstItem]

theorem cheaperSub_replace :
    replace_product_with_substitute 0 1 "B" cheaperSubMid =
      .ok cheaperSubFinal := by
  have h1 : cheaperSubMid.orders.find? (fun o => o.orderId == (0:Nat)) =
      some { orderId := 0, customerId := "c", status := .placed } := by
    norm_num [cheaperSubMid, List.find?]
  have h2 : cheaperSubMid.orderLines.find?
      (fun l => l.orderId == (0:Nat) && l.lineId == (1:Nat)) =
      some { lineId := 1, orderId := 0, productCode := "A", orderedQty := 1, lineStatus := .ok } := by
    norm_num [cheaperSubMid, List.find?]
  have h3 : cheaperSubMid.orderSubstitutes.find? (substituteLookupP 0 1 "B") =
      some { orderId := 0, lineId := 1, substituteProductCode := "B", priority := 1, isUsed := false } := by
    norm_num +decide [cheaperSubMid, List.find?, substituteLookupP]
  have h4 : findProduct? cheaperSubMid "B" =
      some { productCode := "B", price := 1 } := by
    norm_num +decide [cheaperSubMid, List.find?, findProduct?, cheaperSubProducts]
  have h5 : findProduct? cheaperSubMid "A" =
      some { productCode := "A", price := 2 } := by
    norm_num +decide [cheaperSubMid, List.find?, findProduct?, cheaperSubProducts]
  have h6 : ((1:ℚ) - 2) * 1 ≠ 0 := by norm_num
  have h := replace_eval h1 h2 h3 h4 h5 h6
  rw [h]
  norm_num +decide [cheaperSubMid, cheaperSubFinal, replacedLines, usedSubs,
    updateFirst, substituteLookupP, cancelActiveOrderInvoice, activeOrderInvoiceP,
    modInvoice, modItem, regenInvoice, regenItems, regenLineTotals, regenTotal,
    findProduct?, List.find?, List.filter, List.filterMap, vatRate,
    cheaperSubProducts, cheaperSubModInvoice, cheaperSubRegenInvoice,
    cheaperSubFirstInvoice, cheaperSubFirstInvoiceActive, cheaperSubModItem,
    cheaperSubRegenItem, cheaperSubFirstItem, cheaperSubReplacedLine,
    cheaperSubUsedSub, abs, Option.map, List.sum, List.foldr, List.map]

theorem cheaperSub_reach_eq :
    reach cheaperSubProducts cheaperSubOps = cheaperSubFinal := by
  show applyOp (applyOp (initState cheaperSubProducts)
      (.place "c" cheaperSubCart)) (.replace 0 1 "B") = cheaperSubFinal
  have h1 : applyOp (initState cheaperSubProducts) (.place "c" cheaperSubCart)
      = cheaperSubMid := by
    unfold applyOp runOp
    dsimp only
    rw [cheaperSub_place]
  rw [h1]
  unfold applyOp runOp
  dsimp only
  rw [cheaperSub_replace]

/-- C1 counterexample: after a substitution whose substitute is cheaper than
the original product, the store holds a non-cancelled MODIFICATION invoice
with `total_amount = 1` whose single item has `total_price = -1`, so
`total_amount ≠ Σ items.total_price`: the claimed invariant is false at this
reachable store. -/
theorem c1_counterexample :
    ¬ SumConsistent (reach cheaperSubProducts cheaperSubOps) ∧
    ((reach cheaperSubProducts cheaperSubOps).invoices.find?
        (fun inv => inv.invoiceType == InvoiceType.modification)).map
      (fun inv => (inv.status, inv.totalAmount,
        itemSum (reach cheaperSubProducts cheaperSubOps) inv.invoiceId)) =
      some (InvoiceStatus.pending, 1, -1) := by
  rw [cheaperSub_reach_eq]
  constructor
  · intro h
    have hmem : cheaperSubModInvoice ∈ cheaperSubFinal.invoices := by
      simp [cheaperSubFinal]
    have hne : cheaperSubModInvoice.status ≠ InvoiceStatus.cancelled := by
      decide
    have heq := h cheaperSubModInvoice hmem hne
    norm_num +decide [cheaperSubModInvoice, cheaperSubFinal, itemSum, itemSumL,
      cheaperSubModItem, cheaperSubRegenItem, cheaperSubFirstItem,
      List.filter, List.map, List.sum, List.foldr] at heq
  · norm_num +decide [cheaperSubFinal, List.find?, cheaperSubModInvoice,
      cheaperSubRegenInvoice, cheaperSubFirstInvoice, itemSum, itemSumL,
      cheaperSubModItem, cheaperSubRegenItem, cheaperSubFirstItem, List.filter]

/-- C1 (amended): after any sequence of operations (order placement,
substitution with invoice regeneration and MODIFICATION invoice creation,
claim intake, AI triage, refund issuance, status updates, cancellation),
every non-cancelled invoice that is not a MODIFICATION invoice satisfies
`total_amount = Σ items.total_price`; a MODIFICATION invoice instead
satisfies `total_amount = |Σ items.total_price|` — its single item keeps the
signed price difference while the header stores the magnitude, so for a
cheaper substitute the header and the item sum differ in sign. -/
theorem c1_sum_invariant_amended (products : List Product) (ops : List Op) :
    SumConsistentAmended (reach products ops) :=
  (inv_reach products ops).sumOk

/-- C3: for every order, after any sequence of requests (order placement and
substitution among them), at most one invoice with `type = ORDER` and
non-cancelled status references that order: substitution cancels the active
ORDER invoice before inserting the regenerated one. -/
theorem c3_single_active_order_invoice (products : List Product)
    (ops : List Op) (oid : Nat) :
    (reach products ops).invoices.countP (activeOrderInvoiceP oid) ≤ 1 :=
  (inv_reach products ops).activeOrderOnce oid

/-! Helper frame lemmas for the per-claim theorems. -/

theorem replace_ok_cases {oid lid : Nat} {code : String} {u v : State}
    (h : replace_product_with_substitute oid lid code u = .ok v) :
    ∃ order ∈ u.orders, order.orderId = oid ∧
      v.products = u.products ∧
      v.orderLines = replacedLines oid lid code u.orderLines ∧
      v.orderSubstitutes = usedSubs oid lid code u.orderSubstitutes ∧
      regenInvoice u oid lid code order.customerId ∈ v.invoices ∧
      u.orderSubstitutes.find? (substituteLookupP oid lid code) ≠ none := by
  unfold replace_product_with_substitute at h
  cases h1 : u.orders.find? (fun o => o.orderId == oid) with
  | none => rw [h1] at h; simp at h
  | some order =>
  rw [h1] at h
  dsimp only at h
  cases h2 : u.orderLines.find? (fun l => l.orderId == oid && l.lineId == lid) with
  | none => rw [h2] at h; simp at h
  | some orderLine =>
  rw [h2] at h
  dsimp only at h
  cases h3 : u.orderSubstitutes.find? (substituteLookupP oid lid code) with
  | none => rw [h3] at h; simp at h
  | some osub =>
  rw [h3] at h
  dsimp only at h
  cases h4 : findProduct? u code with
  | none => rw [h4] at h; simp at h
  | some subProduct =>
  rw [h4] at h
  dsimp only at h
  cases h5 : findProduct? u orderLine.productCode with
  | none => rw [h5] at h; simp at h
  | some oldProduct =>
  rw [h5] at h
  dsimp only at h
  have hbeq := List.find?_some h1
  have horder : order.orderId = oid := eq_of_beq hbeq
  have hmem := List.mem_of_find?_eq_some h1
  by_cases hd : (subProduct.price - oldProduct.price) * orderLine.orderedQty = 0
  · rw [if_pos hd] at h
    simp only [Except.ok.injEq] at h
    subst h
    exact ⟨order, hmem, horder, rfl, rfl, rfl,
      List.mem_cons_self _ _, by simp⟩
  · rw [if_neg hd] at h
    simp only [Except.ok.injEq] at h
    subst h
    exact ⟨order, hmem, horder, rfl, rfl, rfl,
      List.mem_cons_of_mem _ (List.mem_cons_self _ _), by simp⟩

/-- Frame facts of a successful order placement. -/
theorem place_ok_cases {cust : String} {cart : List CartItem} {s t : State}
    (h : place_order cust cart s = .ok t) :
    t.products = s.products ∧
    t.orderLines = placeLines s cart ++ s.orderLines ∧
    t.invoices = placeInvoice cust cart s :: s.invoices ∧
    t.invoiceItems = placeItems s cart ++ s.invoiceItems := by
  unfold place_order at h
  by_cases hc : cart.isEmpty
  · rw [if_pos hc] at h
    simp at h
  · rw [if_neg hc] at h
    dsimp only at h
    simp only [Except.ok.injEq] at h
    subst h
    exact ⟨rfl, rfl, rfl, rfl⟩

/-- Looking up a product only depends on the catalog. -/
theorem findProduct?_congr {s t : State} (h : t.products = s.products) :
    findProduct? t = findProduct? s := by
  funext c
  unfold findProduct?
  rw [h]

/-- Every kept cart item's product is in the catalog, at the recorded pair. -/
theorem keptItems_lookup (s : State) (cart : List CartItem) :
    ∀ cp ∈ keptItems s cart, findProduct? s cp.1.productCode = some cp.2 := by
  intro cp hcp
  unfold keptItems at hcp
  rcases List.mem_filterMap.mp hcp with ⟨ci, _, h⟩
  cases hf : findProduct? s ci.productCode with
  | none => rw [hf] at h; simp at h
  | some p =>
      rw [hf] at h
      simp only [Option.map_some', Option.some.injEq] at h
      rw [← h]
      exact hf

/-- Summing `qty × price` with a `0` default over missing products agrees
with summing over the kept (line, product) pairs. -/
theorem sum_filterMap_eq (s : State) (F : OrderLine → ℚ) (L : List OrderLine)
    (hFs : ∀ l p, findProduct? s l.productCode = some p →
      F l = l.orderedQty * p.price)
    (hF0 : ∀ l, findProduct? s l.productCode = none → F l = 0) :
    (L.map F).sum = ((L.filterMap (fun l =>
      (findProduct? s l.productCode).map (fun p => (l, p)))).map
      (fun lp => lp.1.orderedQty * lp.2.price)).sum := by
  induction L with
  | nil => rfl
  | cons l rest ih =>
      rw [List.map_cons, List.sum_cons, List.filterMap_cons]
      cases hf : findProduct? s l.productCode with
      | none =>
          rw [hF0 l hf, ih]
          dsimp only [Option.map_none']
          rw [zero_add]
      | some p =>
          rw [hFs l p hf]
          dsimp only [Option.map_some']
          rw [List.map_cons, List.sum_cons, ih]

/-- Summing any per-line function that agrees with `qty × price` over the
fresh lines of a placement gives the invoice total of the placement. -/
theorem sum_placeLines (s : State) (cart : List CartItem) (F : OrderLine → ℚ)
    (hFs : ∀ l p, findProduct? s l.productCode = some p →
      F l = l.orderedQty * p.price) :
    ((placeLines s cart).map F).sum = placeTotal s cart := by
  unfold placeLines placeTotal
  rw [List.map_map]
  conv_rhs => rw [← List.enum_map_snd (keptItems s cart), List.map_map]
  refine congrArg List.sum (List.map_congr_left ?_)
  intro ip hip
  have hg := List.mem_enum_iff_getElem?.mp hip
  have hmem : ip.2 ∈ keptItems s cart := List.getElem?_mem hg
  have hf : findProduct? s ip.2.1.productCode = some ip.2.2 :=
    keptItems_lookup s cart ip.2 hmem
  simp only [Function.comp_apply]
  exact hFs _ _ hf

/-! C4: AI-failure fallback (claims pipeline). -/

/-- C4: when the AI collaborator call fails, `process_claim` yields nothing
and the claim deterministically falls back to MANUAL_REVIEW with
`ai_confidence = 0` and the fixed fallback result — it is never left in
AI_PROCESSING. -/
theorem c4_fallback_determinism {s : State} {cid : Nat} {err : String}
    {claim : Claim} {proc : ClaimProcessing}
    (hfc : s.claims.find? (fun c => c.claimId == cid) = some claim)
    (hfp : s.claimProcessings.find? (fun p => p.claimId == cid) = some proc) :
    (((process_claim_ai cid (.error err) s).claims.find?
        (fun c => c.claimId == cid)).map (fun c => c.status)) =
      some ClaimStatus.manualReview ∧
    (((process_claim_ai cid (.error err) s).claimProcessings.find?
        (fun p => p.claimId == cid)).map
      (fun p => (p.aiConfidence, p.aiResult, p.requiresManualReview))) =
      some (some 0, some (fallbackSummary, "manual_review_needed"), true) ∧
    process_claim (Except.error err) = none := by
  unfold process_claim_ai
  rw [hfc]
  dsimp only
  rw [hfp]
  dsimp only [process_claim]
  refine ⟨?_, ?_, rfl⟩
  · unfold manualReviewClaims
    rw [find?_updateFirst (p := fun c : Claim => c.claimId == cid)
      (f := fun c : Claim => { c with status := ClaimStatus.manualReview })
      (fun x => rfl), hfc]
    rfl
  · unfold fallbackProcessings
    rw [find?_updateFirst (p := fun q : ClaimProcessing => q.claimId == cid)
      (f := fun p : ClaimProcessing =>
        { p with
          aiProcessed := true
          requiresManualReview := true
          aiConfidence := some 0
          aiResult := some (fallbackSummary, "manual_review_needed") })
      (fun x => rfl), hfp]
    rfl

def c4Claim : Claim :=
  { claimId := 0, orderId := 0, customerId := "c", status := .aiProcessing,
    creditAmount := none, handledBy := none, rejectionReason := none }

def c4Proc : ClaimProcessing :=
  { claimId := 0, aiProcessed := false, aiConfidence := none, aiResult := none,
    requiresManualReview := false, reviewedBy := none }

def c4S : State :=
  { nextId := 1, products := [], orders := [], orderLines := [],
    orderSubstitutes := [], invoices := [], invoiceItems := [],
    claims := [c4Claim], claimProcessings := [c4Proc] }

theorem c4_fallback_determinism_witness :
    c4S.claims.find? (fun c => c.claimId == 0) = some c4Claim ∧
    c4S.claimProcessings.find? (fun p => p.claimId == 0) = some c4Proc ∧
    ((((process_claim_ai 0 (.error "timeout") c4S).claims.find?
        (fun c => c.claimId == 0)).map (fun c => c.status)) =
      some ClaimStatus.manualReview ∧
    (((process_claim_ai 0 (.error "timeout") c4S).claimProcessings.find?
        (fun p => p.claimId == 0)).map
      (fun p => (p.aiConfidence, p.aiResult, p.requiresManualReview))) =
      some (some 0, some (fallbackSummary, "manual_review_needed"), true) ∧
    process_claim (Except.error "timeout") = none) :=
  ⟨rfl, rfl, c4_fallback_determinism rfl rfl⟩

/-! C7: counterexample — no terminal-state guard in the admin status update. -/

def c7S : State :=
  { nextId := 1, products := [],
    orders := [{ orderId := 0, customerId := "c", status := .delivered }],
    orderLines := [], orderSubstitutes := [], invoices := [],
    invoiceItems := [], claims := [], claimProcessings := [] }

def c7T : State :=
  { nextId := 1, products := [],
    orders := [{ orderId := 0, customerId := "c", status := .picking }],
    orderLines := [], orderSubstitutes := [], invoices := [],
    invoiceItems := [], claims := [], claimProcessings := [] }

/-- C7 counterexample: the admin status update has no terminal-state guard —
it moves a DELIVERED order back to PICKING. -/
theorem c7_counterexample :
    ((c7S.orders.find? (fun o => o.orderId == 0)).map (fun o => o.status) =
      some OrderStatus.delivered) ∧
    update_order_status 0 OrderStatus.picking c7S = .ok c7T ∧
    ((c7T.orders.find? (fun o => o.orderId == 0)).map (fun o => o.status) =
      some OrderStatus.picking) :=
  ⟨rfl, rfl, rfl⟩

/-- C7 (amended): the customer `cancel_order` does fail with 400 on a
DELIVERED or CANCELLED order and leaves the store unchanged; the admin
`update_order_status` has no such guard (see the counterexample). -/
theorem c7_terminal_cancel_amended {s : State} {oid : Nat} {cust : String}
    {order : Order}
    (hfo : s.orders.find? (fun o => o.orderId == oid && o.customerId == cust) =
      some order)
    (hterm : order.status = OrderStatus.delivered ∨
      order.status = OrderStatus.cancelled) :
    (∃ e, cancel_order oid cust s = .error (ApiError.badRequest e)) ∧
    applyOp s (Op.cancel oid cust) = s := by
  have herr : ∃ e, cancel_order oid cust s = .error (ApiError.badRequest e) := by
    unfold cancel_order
    rw [hfo]
    dsimp only
    rcases hterm with h | h
    · rw [if_neg (by simp [h]), if_pos h]
      exact ⟨_, rfl⟩
    · rw [if_pos h]
      exact ⟨_, rfl⟩
  refine ⟨herr, ?_⟩
  obtain ⟨e, he⟩ := herr
  unfold applyOp runOp
  dsimp only
  rw [he]

def c7S2 : State :=
  { nextId := 1, products := [],
    orders := [{ orderId := 0, customerId := "c", status := .cancelled }],
    orderLines := [], orderSubstitutes := [], invoices := [],
    invoiceItems := [], claims := [], claimProcessings := [] }

theorem c7_terminal_cancel_amended_witness :
    (c7S2.orders.find? (fun o => o.orderId == 0 && o.customerId == "c") =
      some { orderId := 0, customerId := "c", status := .cancelled }) ∧
    ((∃ e, cancel_order 0 "c" c7S2 = .error (ApiError.badRequest e)) ∧
      applyOp c7S2 (Op.cancel 0 "c") = c7S2) :=
  ⟨rfl, c7_terminal_cancel_amended rfl (Or.inr rfl)⟩

/-! C6: counterexample — the generic claims router checks no order status. -/

def c6S : State :=
  { nextId := 1, products := [],
    orders := [{ orderId := 0, customerId := "c", status := .placed }],
    orderLines := [], orderSubstitutes := [], invoices := [],
    invoiceItems := [], claims := [], claimProcessings := [] }

def c6Claim : Claim :=
  { claimId := 1, orderId := 0, customerId := "c", status := .opened,
    creditAmount := none, handledBy := none, rejectionReason := none }

def c6T : State :=
  { nextId := 2, products := [],
    orders := [{ orderId := 0, customerId := "c", status := .placed }],
    orderLines := [], orderSubstitutes := [], invoices := [],
    invoiceItems := [],
    claims := [c6Claim],
    claimProcessings := [] }

/-- C6 counterexample: the generic claims router creates a claim against a
PLACED (not DELIVERED) order without any status check. -/
theorem c6_counterexample :
    ((c6S.orders.find? (fun o => o.orderId == 0)).map (fun o => o.status) =
      some OrderStatus.placed) ∧
    create_claim_generic 0 c6S = .ok c6T :=
  ⟨rfl, rfl⟩

/-- C6 (amended): the customer claim endpoint only creates a claim when the
order belongs to the customer and is DELIVERED; the generic claims router
enforces no such precondition (see the counterexample). -/
theorem c6_intake_delivered_amended {s t : State} {cust : String} {oid : Nat}
    (h : create_claim cust oid s = .ok t) :
    ∃ order ∈ s.orders, order.orderId = oid ∧ order.customerId = cust ∧
      order.status = OrderStatus.delivered := by
  unfold create_claim at h
  cases hf : s.orders.find? (fun o => o.orderId == oid &&
      o.customerId == cust && o.status == OrderStatus.delivered) with
  | none => rw [hf] at h; simp at h
  | some order =>
      have hmem := List.mem_of_find?_eq_some hf
      have hp := List.find?_some hf
      simp only [Bool.and_eq_true, beq_iff_eq] at hp
      exact ⟨order, hmem, hp.1.1, hp.1.2, hp.2⟩

def c6dS : State :=
  { nextId := 1, products := [],
    orders := [{ orderId := 0, customerId := "c", status := .delivered }],
    orderLines := [], orderSubstitutes := [], invoices := [],
    invoiceItems := [], claims := [], claimProcessings := [] }

def c6dClaim : Claim :=
  { claimId := 1, orderId := 0, customerId := "c", status := .aiProcessing,
    creditAmount := none, handledBy := none, rejectionReason := none }

def c6dProc : ClaimProcessing :=
  { claimId := 1, aiProcessed := false, aiConfidence := none, aiResult := none,
    requiresManualReview := false, reviewedBy := none }

def c6dT : State :=
  { nextId := 2, products := [],
    orders := [{ orderId := 0, customerId := "c", status := .delivered }],
    orderLines := [], orderSubstitutes := [], invoices := [],
    invoiceItems := [],
    claims := [c6dClaim],
    claimProcessings := [c6dProc] }

theorem c6_intake_delivered_amended_witness :
    create_claim "c" 0 c6dS = .ok c6dT ∧
    ∃ order ∈ c6dS.orders, order.orderId = 0 ∧ order.customerId = "c" ∧
      order.status = OrderStatus.delivered :=
  ⟨rfl, c6_intake_delivered_amended (t := c6dT) rfl⟩

/-! C2: refund idempotency. -/

/-- C2: refund issuance is idempotent — approving the same claim twice with
two different amounts leaves exactly one non-cancelled REFUND invoice for
the claim, updated in place to the latest amount, with its single item's
`total_price` equal to that amount. -/
theorem c2_refund_idempotent {s : State} {cid : Nat} {a b : ℚ}
    {ad ad' : String} {claim : Claim}
    (hfc : s.claims.find? (fun c => c.claimId == cid) = some claim)
    (hno : s.invoices.find? (refundLookupP cid) = none)
    (hitems : ∀ it ∈ s.invoiceItems, it.invoiceId ≠ s.nextId)
    (hab : a ≠ b) :
    ∃ s1 s2,
      approve_claim cid (some a) ad s = .ok s1 ∧
      approve_claim cid (some b) ad' s1 = .ok s2 ∧
      s2.invoices = refundInvoice s cid claim.customerId b :: s.invoices ∧
      s2.invoiceItems = refundItem s b :: s.invoiceItems ∧
      (s2.invoices.filter (fun inv => refundLookupP cid inv &&
          !(inv.status == InvoiceStatus.cancelled))).map
        (fun inv => inv.totalAmount) = [b] ∧
      (s2.invoiceItems.filter (fun it => it.invoiceId == s.nextId)).map
        (fun it => it.totalPrice) = [b] := by
  have h1 := @approve_claim_create s cid a ad claim hfc hno
  have hfc1 : (approvedClaims cid ad a s.claims).find?
      (fun c => c.claimId == cid) =
      some { claim with
        status := .approved
        handledBy := some ad
        creditAmount := some a } := by
    unfold approvedClaims
    rw [find?_updateFirst (p := fun c : Claim => c.claimId == cid)
      (f := fun c : Claim =>
        { c with
          status := .approved
          handledBy := some ad
          creditAmount := some a })
      (fun x => rfl), hfc]
    rfl
  have hhead : refundLookupP cid (refundInvoice s cid claim.customerId a) = true := by
    simp [refundLookupP, refundInvoice]
  have hfi1 : (refundInvoice s cid claim.customerId a :: s.invoices).find?
      (refundLookupP cid) = some (refundInvoice s cid claim.customerId a) :=
    List.find?_cons_of_pos _ hhead
  have hne1 : (refundInvoice s cid claim.customerId a).totalAmount ≠ b := hab
  have h2 := @approve_claim_update
    { s with
      nextId := s.nextId + 1
      claims := approvedClaims cid ad a s.claims
      claimProcessings := reviewedProcessings cid ad s.claimProcessings
      invoices := refundInvoice s cid claim.customerId a :: s.invoices
      invoiceItems := refundItem s a :: s.invoiceItems }
    cid b ad' _ _ hfc1 hfi1 hne1
  have hinv : updateFirst
      (fun inv => inv.invoiceId == (refundInvoice s cid claim.customerId a).invoiceId)
      (fun inv => { inv with totalAmount := b })
      (refundInvoice s cid claim.customerId a :: s.invoices) =
      refundInvoice s cid claim.customerId b :: s.invoices := by
    rw [updateFirst_cons]
    rw [if_pos (beq_self_eq_true (refundInvoice s cid claim.customerId a).invoiceId)]
    rfl
  have hitm : updateFirst
      (fun it => it.invoiceId == (refundInvoice s cid claim.customerId a).invoiceId)
      (fun it => { it with unitPrice := b, totalPrice := b })
      (refundItem s a :: s.invoiceItems) =
      refundItem s b :: s.invoiceItems := by
    rw [updateFirst_cons]
    rw [if_pos (show ((refundItem s a).invoiceId ==
        (refundInvoice s cid claim.customerId a).invoiceId) = true from
      beq_self_eq_true s.nextId)]
    rfl
  refine ⟨_, _, h1, h2, ?_⟩
  refine ⟨?_, ?_, ?_, ?_⟩ <;> dsimp only
  · exact hinv
  · exact hitm
  · rw [hinv]
    have hq : ∀ inv ∈ s.invoices, ¬ (refundLookupP cid inv &&
        !(inv.status == InvoiceStatus.cancelled)) = true := by
      intro inv hi hcontra
      exact absurd ((Bool.and_eq_true _ _).mp hcontra).1
        (List.find?_eq_none.mp hno inv hi)
    rw [List.filter_cons_of_pos]
    · rw [List.filter_eq_nil_iff.mpr hq]
      rfl
    · simp [refundLookupP, refundInvoice]
  · rw [hitm]
    have hq : ∀ it ∈ s.invoiceItems, ¬ (it.invoiceId == s.nextId) = true := by
      intro it hi hcontra
      exact hitems it hi (eq_of_beq hcontra)
    rw [List.filter_cons_of_pos]
    · rw [List.filter_eq_nil_iff.mpr hq]
      rfl
    · exact beq_self_eq_true s.nextId

def c2Claim : Claim :=
  { claimId := 0, orderId := 0, customerId := "c", status := .manualReview,
    creditAmount := none, handledBy := none, rejectionReason := none }

def c2S : State :=
  { nextId := 1, products := [], orders := [], orderLines := [],
    orderSubstitutes := [], invoices := [], invoiceItems := [],
    claims := [c2Claim], claimProcessings := [] }

theorem c2_refund_idempotent_witness :
    (c2S.claims.find? (fun c => c.claimId == 0) = some c2Claim ∧
      c2S.invoices.find? (refundLookupP 0) = none ∧
      (∀ it ∈ c2S.invoiceItems, it.invoiceId ≠ c2S.nextId) ∧
      (2 : ℚ) ≠ 3) ∧
    ∃ s1 s2,
      approve_claim 0 (some 2) "admin1" c2S = .ok s1 ∧
      approve_claim 0 (some 3) "admin2" s1 = .ok s2 ∧
      s2.invoices = refundInvoice c2S 0 c2Claim.customerId 3 :: c2S.invoices ∧
      s2.invoiceItems = refundItem c2S 3 :: c2S.invoiceItems ∧
      (s2.invoices.filter (fun inv => refundLookupP 0 inv &&
          !(inv.status == InvoiceStatus.cancelled))).map
        (fun inv => inv.totalAmount) = [3] ∧
      (s2.invoiceItems.filter (fun it => it.invoiceId == c2S.nextId)).map
        (fun it => it.totalPrice) = [3] :=
  ⟨⟨rfl, rfl, by simp [c2S], by norm_num⟩,
    c2_refund_idempotent rfl rfl (by simp [c2S]) (by norm_num)⟩

/-! C9: default refund amount. -/

/-- C9: a claim approved without an explicit amount gets the default refund
`max(1, 0.10 × order value)` (1 outright when the order is missing), and the
amount is stored on the claim as `credit_amount`. -/
theorem c9_default_refund {s : State} {cid : Nat} {ad : String} {claim : Claim}
    (hfc : s.claims.find? (fun c => c.claimId == cid) = some claim) :
    resolveRefundAmount s claim none = computeDefaultRefund s claim.orderId ∧
    (computeDefaultRefund s claim.orderId =
      match s.orders.find? (fun o => o.orderId == claim.orderId) with
      | some _ => max 1 (orderValue s claim.orderId * (1 / 10))
      | none => 1) ∧
    ∃ t, approve_claim cid none ad s = .ok t ∧
      (t.claims.find? (fun c => c.claimId == cid)).map (fun c => c.creditAmount) =
        some (some (computeDefaultRefund s claim.orderId)) := by
  refine ⟨rfl, ?_, ?_⟩
  · unfold computeDefaultRefund
    cases s.orders.find? (fun o => o.orderId == claim.orderId) with
    | none => rfl
    | some o =>
        dsimp only
        rcases lt_or_le (orderValue s claim.orderId * (1 / 10)) 1 with h | h
        · rw [if_pos h, max_eq_left h.le]
        · rw [if_neg (not_lt.mpr h), max_eq_right h]
  · have hclaims : ∀ u : State,
        u.claims = approvedClaims cid ad (computeDefaultRefund s claim.orderId) s.claims →
        (u.claims.find? (fun c => c.claimId == cid)).map (fun c => c.creditAmount) =
          some (some (computeDefaultRefund s claim.orderId)) := by
      intro u hu
      rw [hu]
      unfold approvedClaims
      rw [find?_updateFirst (p := fun c : Claim => c.claimId == cid)
        (f := fun c : Claim =>
          { c with
            status := .approved
            handledBy := some ad
            creditAmount := some (computeDefaultRefund s claim.orderId) })
        (fun x => rfl), hfc]
      rfl
    unfold approve_claim
    rw [hfc]
    dsimp only
    cases hfi : s.invoices.find? (refundLookupP cid) with
    | none =>
        dsimp only
        exact ⟨_, rfl, hclaims _ rfl⟩
    | some existing =>
        dsimp only
        by_cases he : existing.totalAmount = resolveRefundAmount s claim none
        · rw [if_pos he]
          exact ⟨_, rfl, hclaims _ rfl⟩
        · rw [if_neg he]
          exact ⟨_, rfl, hclaims _ rfl⟩

def c9Product : Product := { productCode := "A", price := 3/2 }

def c9Line : OrderLine :=
  { lineId := 1, orderId := 0, productCode := "A", orderedQty := 10,
    lineStatus := .ok }

def c9Claim : Claim :=
  { claimId := 2, orderId := 0, customerId := "c", status := .manualReview,
    creditAmount := none, handledBy := none, rejectionReason := none }

def c9S : State :=
  { nextId := 3, products := [c9Product],
    orders := [{ orderId := 0, customerId := "c", status := .delivered }],
    orderLines := [c9Line], orderSubstitutes := [], invoices := [],
    invoiceItems := [], claims := [c9Claim], claimProcessings := [] }

theorem c9_default_refund_witness :
    (c9S.claims.find? (fun c => c.claimId == 2) = some c9Claim) ∧
    (resolveRefundAmount c9S c9Claim none = computeDefaultRefund c9S c9Claim.orderId ∧
      (computeDefaultRefund c9S c9Claim.orderId =
        match c9S.orders.find? (fun o => o.orderId == c9Claim.orderId) with
        | some _ => max 1 (orderValue c9S c9Claim.orderId * (1 / 10))
        | none => 1) ∧
      ∃ t, approve_claim 2 none "admin" c9S = .ok t ∧
        (t.claims.find? (fun c => c.claimId == 2)).map (fun c => c.creditAmount) =
          some (some (computeDefaultRefund c9S c9Claim.orderId))) ∧
    orderValue c9S 0 = 15 ∧
    computeDefaultRefund c9S 0 = 3/2 :=
  ⟨rfl, c9_default_refund rfl, by
    constructor
    · norm_num +decide [orderValue, c9S, c9Line, c9Product, findProduct?,
        List.find?, List.filter]
    · norm_num +decide [computeDefaultRefund, orderValue, c9S, c9Line,
        c9Product, findProduct?, List.find?, List.filter]⟩

/-! C10: approval has no claim-status precondition. -/

/-- C10: `approve_claim` has no claim-status precondition: it succeeds on a
claim in any status, sets APPROVED and `handled_by`, clears
`requires_manual_review` on the processing row, and a REFUND invoice for the
claim exists afterwards (created or updated). -/
theorem c10_approve_any_status {s : State} {cid : Nat} {amt : Option ℚ}
    {ad : String} {claim : Claim}
    (hfc : s.claims.find? (fun c => c.claimId == cid) = some claim) :
    ∃ t, approve_claim cid amt ad s = .ok t ∧
      (t.claims.find? (fun c => c.claimId == cid)).map
        (fun c => (c.status, c.handledBy)) =
        some (ClaimStatus.approved, some ad) ∧
      t.claimProcessings = reviewedProcessings cid ad s.claimProcessings ∧
      ∃ inv ∈ t.invoices, refundLookupP cid inv = true := by
  have hclaims : ∀ u : State, ∀ r : ℚ,
      u.claims = approvedClaims cid ad r s.claims →
      (u.claims.find? (fun c => c.claimId == cid)).map
        (fun c => (c.status, c.handledBy)) =
        some (ClaimStatus.approved, some ad) := by
    intro u r hu
    rw [hu]
    unfold approvedClaims
    rw [find?_updateFirst (p := fun c : Claim => c.claimId == cid)
      (f := fun c : Claim =>
        { c with
          status := .approved
          handledBy := some ad
          creditAmount := some r })
      (fun x => rfl), hfc]
    rfl
  unfold approve_claim
  rw [hfc]
  dsimp only
  cases hfi : s.invoices.find? (refundLookupP cid) with
  | none =>
      dsimp only
      refine ⟨_, rfl, hclaims _ _ rfl, rfl, ?_⟩
      exact ⟨_, List.mem_cons_self _ _, by simp [refundLookupP, refundInvoice]⟩
  | some existing =>
      dsimp only
      have hmem := List.mem_of_find?_eq_some hfi
      have hpx := List.find?_some hfi
      by_cases he : existing.totalAmount = resolveRefundAmount s claim amt
      · rw [if_pos he]
        exact ⟨_, rfl, hclaims _ _ rfl, rfl, existing, hmem, hpx⟩
      · rw [if_neg he]
        refine ⟨_, rfl, hclaims _ _ rfl, rfl, ?_⟩
        rcases mem_updateFirst_of_mem
            (p := fun inv : Invoice => inv.invoiceId == existing.invoiceId)
            (f := fun inv : Invoice =>
              { inv with totalAmount := resolveRefundAmount s claim amt })
            hmem with h | h
        · exact ⟨existing, h, hpx⟩
        · exact ⟨_, h, hpx⟩

def c10Claim : Claim :=
  { claimId := 0, orderId := 5, customerId := "c", status := .resolved,
    creditAmount := none, handledBy := none, rejectionReason := none }

def c10S : State :=
  { nextId := 1, products := [], orders := [], orderLines := [],
    orderSubstitutes := [], invoices := [], invoiceItems := [],
    claims := [c10Claim], claimProcessings := [] }

theorem c10_approve_any_status_witness :
    (c10S.claims.find? (fun c => c.claimId == 0) = some c10Claim ∧
      c10Claim.status = ClaimStatus.resolved) ∧
    ∃ t, approve_claim 0 (some 2) "admin" c10S = .ok t ∧
      (t.claims.find? (fun c => c.claimId == 0)).map
        (fun c => (c.status, c.handledBy)) =
        some (ClaimStatus.approved, some "admin") ∧
      t.claimProcessings = reviewedProcessings 0 "admin" c10S.claimProcessings ∧
      ∃ inv ∈ t.invoices, refundLookupP 0 inv = true :=
  ⟨⟨rfl, rfl⟩, c10_approve_any_status rfl⟩

/-- C5 (amended): a successful substitution flags the looked-up substitute
row `is_used = true`, and it only succeeds when a row matching the explicit
`(order_id, line_id, substitute_product_code)` exists — but the lookup does
not filter on `is_used` (see the counterexample). -/
theorem c5_substitution_marking_amended {oid lid : Nat} {code : String}
    {s t : State}
    (h : replace_product_with_substitute oid lid code s = .ok t) :
    ((t.orderSubstitutes.find? (substituteLookupP oid lid code)).map
      (fun os => os.isUsed)) = some true ∧
    s.orderSubstitutes.find? (substituteLookupP oid lid code) ≠ none := by
  obtain ⟨order, _, _, _, _, hsubs, _, hne⟩ := replace_ok_cases h
  refine ⟨?_, hne⟩
  rw [hsubs]
  unfold usedSubs
  rw [find?_updateFirst (p := substituteLookupP oid lid code)
    (f := fun os : OrderSubstitute => { os with isUsed := true })
    (fun x => rfl)]
  cases hf : s.orderSubstitutes.find? (substituteLookupP oid lid code) with
  | none => exact absurd hf hne
  | some os => rfl

theorem c5_substitution_marking_amended_witness :
    replace_product_with_substitute 0 1 "B" cheaperSubMid = .ok cheaperSubFinal ∧
    (((cheaperSubFinal.orderSubstitutes.find? (substituteLookupP 0 1 "B")).map
        (fun os => os.isUsed)) = some true ∧
      cheaperSubMid.orderSubstitutes.find? (substituteLookupP 0 1 "B") ≠ none) :=
  ⟨cheaperSub_replace, c5_substitution_marking_amended cheaperSub_replace⟩

/-- C5 counterexample: after `cheaperSubOps` the substitute row
`(0, 1, "B")` is flagged used, yet a second substitution with the very same
row succeeds — a used substitute *can* be selected again. -/
theorem c5_counterexample :
    (((reach cheaperSubProducts cheaperSubOps).orderSubstitutes.find?
        (substituteLookupP 0 1 "B")).map (fun os => os.isUsed)) = some true ∧
    ∃ t, replace_product_with_substitute 0 1 "B"
        (reach cheaperSubProducts cheaperSubOps) = .ok t := by
  rw [cheaperSub_reach_eq]
  constructor
  · norm_num +decide [cheaperSubFinal, cheaperSubUsedSub, substituteLookupP,
      List.find?]
  · have h1 : cheaperSubFinal.orders.find? (fun o => o.orderId == (0:Nat)) =
        some { orderId := 0, customerId := "c", status := .placed } := by
      norm_num [cheaperSubFinal, List.find?]
    have h2 : cheaperSubFinal.orderLines.find?
        (fun l => l.orderId == (0:Nat) && l.lineId == (1:Nat)) =
        some cheaperSubReplacedLine := by
      norm_num [cheaperSubFinal, cheaperSubReplacedLine, List.find?]
    have h3 : cheaperSubFinal.orderSubstitutes.find? (substituteLookupP 0 1 "B") =
        some cheaperSubUsedSub := by
      norm_num +decide [cheaperSubFinal, cheaperSubUsedSub, List.find?,
        substituteLookupP]
    have h4 : findProduct? cheaperSubFinal "B" =
        some { productCode := "B", price := 1 } := by
      norm_num +decide [cheaperSubFinal, List.find?, findProduct?,
        cheaperSubProducts]
    have h5 : findProduct? cheaperSubFinal cheaperSubReplacedLine.productCode =
        some { productCode := "B", price := 1 } := by
      norm_num +decide [cheaperSubFinal, cheaperSubReplacedLine, List.find?,
        findProduct?, cheaperSubProducts]
    unfold replace_product_with_substitute
    rw [h1]
    dsimp only
    rw [h2]
    dsimp only
    rw [h3]
    dsimp only
    rw [h4]
    dsimp only
    rw [h5]
    dsimp only
    rw [if_pos (by norm_num [cheaperSubReplacedLine] :
      (({ productCode := "B", price := 1 } : Product).price -
        ({ productCode := "B", price := 1 } : Product).price) *
        cheaperSubReplacedLine.orderedQty = 0)]
    exact ⟨_, rfl⟩

/-- C8: every ORDER-invoice creation (placement and regeneration) yields a
PENDING invoice whose total is the `qty × price` sum over the order's current
lines, with `tax = total × 0.24`, and at placement one item per line. -/
theorem c8_order_invoice_creation {s t : State} {cust : String}
    {cart : List CartItem}
    (hp : place_order cust cart s = .ok t)
    (hlf : ∀ l ∈ s.orderLines, l.orderId ≠ s.nextId)
    (hif : ∀ it ∈ s.invoiceItems, it.invoiceId ≠ placeInvoiceId s cart)
    {u v : State} {oid lid : Nat} {code : String}
    (hr : replace_product_with_substitute oid lid code u = .ok v) :
    (∃ inv ∈ t.invoices, inv.orderId = some s.nextId ∧
      inv.invoiceType = InvoiceType.order ∧
      inv.status = InvoiceStatus.pending ∧
      inv.totalAmount = orderValue t s.nextId ∧
      inv.taxAmount = inv.totalAmount * vatRate ∧
      (t.invoiceItems.filter (fun it => it.invoiceId == inv.invoiceId)).length =
        (t.orderLines.filter (fun l => l.orderId == s.nextId)).length) ∧
    (∃ inv ∈ v.invoices, inv.orderId = some oid ∧
      inv.invoiceType = InvoiceType.order ∧
      inv.status = InvoiceStatus.pending ∧
      inv.totalAmount = orderValue v oid ∧
      inv.taxAmount = inv.totalAmount * vatRate) := by
  obtain ⟨ht3, ht2, ht1, ht4⟩ := place_ok_cases hp
  have hkeep : (placeLines s cart).filter (fun l => l.orderId == s.nextId) =
      placeLines s cart := by
    rw [List.filter_eq_self]
    intro l hl
    unfold placeLines at hl
    rcases List.mem_map.mp hl with ⟨ip, _, rfl⟩
    exact beq_self_eq_true _
  have hold : s.orderLines.filter (fun l => l.orderId == s.nextId) = [] := by
    rw [List.filter_eq_nil_iff]
    intro l hl hc
    exact hlf l hl (eq_of_beq hc)
  constructor
  · refine ⟨placeInvoice cust cart s, by rw [ht1]; exact List.mem_cons_self _ _,
      rfl, rfl, rfl, ?_, rfl, ?_⟩
    · show placeTotal s cart = orderValue t s.nextId
      unfold orderValue
      rw [ht2, findProduct?_congr ht3, List.filter_append, hkeep, hold,
        List.append_nil]
      refine (sum_placeLines s cart _ ?_).symm
      intro l p hf
      dsimp only
      rw [hf]
    · rw [ht4, ht2, List.filter_append, List.filter_append, hkeep, hold,
        List.append_nil]
      have hitems : (placeItems s cart).filter
          (fun it => it.invoiceId == (placeInvoice cust cart s).invoiceId) =
          placeItems s cart := by
        rw [List.filter_eq_self]
        intro it hit
        unfold placeItems at hit
        rcases List.mem_map.mp hit with ⟨cp, _, rfl⟩
        exact beq_self_eq_true _
      have holdIt : s.invoiceItems.filter
          (fun it => it.invoiceId == (placeInvoice cust cart s).invoiceId) =
          [] := by
        rw [List.filter_eq_nil_iff]
        intro it hit hc
        exact hif it hit (eq_of_beq hc)
      rw [hitems, holdIt, List.append_nil]
      unfold placeItems placeLines
      rw [List.length_map, List.length_map, List.enum_length]
  · obtain ⟨order, _, _, hv3, hv2, _, hvinv, _⟩ := replace_ok_cases hr
    refine ⟨regenInvoice u oid lid code order.customerId, hvinv,
      rfl, rfl, rfl, ?_, rfl⟩
    show regenTotal u oid lid code = orderValue v oid
    unfold orderValue
    rw [hv2, findProduct?_congr hv3]
    unfold regenTotal regenLineTotals
    refine (sum_filterMap_eq u _ _ ?_ ?_).symm
    · intro l p hf
      dsimp only
      rw [hf]
    · intro l hf
      dsimp only
      rw [hf]

/-! C8 scenario: one line, qty 10, unit price 1.50; substitute at 2.00. -/

def c8Products : List Product :=
  [{ productCode := "A", price := 3/2 }, { productCode := "B", price := 2 }]

def c8Cart : List CartItem :=
  [{ productCode := "A"
     quantity := 10
     substitutes := [{ substituteProductCode := "B", priority := 1 }] }]

def c8FirstInvoice : Invoice :=
  { invoiceId := 2, orderId := some 0, claimId := none, customerId := "c",
    invoiceType := .order, status := .pending, totalAmount := 15,
    taxAmount := 18/5 }

def c8FirstItem : InvoiceItem :=
  { invoiceId := 2, productCode := some "A", quantity := 10, unitPrice := 3/2,
    totalPrice := 15 }

def c8Mid : State :=
  { nextId := 3
    products := c8Products
    orders := [{ orderId := 0, customerId := "c", status := .placed }]
    orderLines := [{ lineId := 1, orderId := 0, productCode := "A", orderedQty := 10, lineStatus := .ok }]
    orderSubstitutes := [{ orderId := 0, lineId := 1, substituteProductCode := "B", priority := 1, isUsed := false }]
    invoices := [c8FirstInvoice]
    invoiceItems := [c8FirstItem]
    claims := []
    claimProcessings := [] }

def c8ModInvoice : Invoice :=
  { invoiceId := 4, orderId := some 0, claimId := none, customerId := "c",
    invoiceType := .modification, status := .pending, totalAmount := 5,
    taxAmount := 6/5 }

def c8RegenInvoice : Invoice :=
  { invoiceId := 3, orderId := some 0, claimId := none, customerId := "c",
    invoiceType := .order, status := .pending, totalAmount := 20,
    taxAmount := 24/5 }

def c8CancelledInvoice : Invoice :=
  { invoiceId := 2, orderId := some 0, claimId := none, customerId := "c",
    invoiceType := .order, status := .cancelled, totalAmount := 15,
    taxAmount := 18/5 }

def c8ModItem : InvoiceItem :=
  { invoiceId := 4, productCode := some "B", quantity := 10, unitPrice := 1/2,
    totalPrice := 5 }

def c8RegenItem : InvoiceItem :=
  { invoiceId := 3, productCode := some "B", quantity := 10, unitPrice := 2,
    totalPrice := 20 }

def c8ReplacedLine : OrderLine :=
  { lineId := 1, orderId := 0, productCode := "B", orderedQty := 10,
    lineStatus := .replaced }

def c8UsedSub : OrderSubstitute :=
  { orderId := 0, lineId := 1, substituteProductCode := "B", priority := 1,
    isUsed := true }

def c8Final : State :=
  { nextId := 5
    products := c8Products
    orders := [{ orderId := 0, customerId := "c", status := .placed }]
    orderLines := [c8ReplacedLine]
    orderSubstitutes := [c8UsedSub]
    invoices := [c8ModInvoice, c8RegenInvoice, c8CancelledInvoice]
    invoiceItems := [c8ModItem, c8RegenItem, c8FirstItem]
    claims := []
    claimProcessings := [] }

theorem c8_place :
    place_order "c" c8Cart (initState c8Products) = .ok c8Mid := by
  norm_num +decide [place_order, initState, placeInvoiceId, keptItems, findProduct?,
    placeLines, placeSubs, placeInvoice, placeItems, placeTotal, vatRate,
    List.enum, List.enumFrom, List.flatMap, List.find?, List.filterMap,
    c8Mid, c8Products, c8Cart, c8FirstInvoice, c8FirstItem]

theorem c8_replace :
    replace_product_with_substitute 0 1 "B" c8Mid = .ok c8Final := by
  have h1 : c8Mid.orders.find? (fun o => o.orderId == (0:Nat)) =
      some { orderId := 0, customerId := "c", status := .placed } := by
    norm_num [c8Mid, List.find?]
  have h2 : c8Mid.orderLines.find?
      (fun l => l.orderId == (0:Nat) && l.lineId == (1:Nat)) =
      some { lineId := 1, orderId := 0, productCode := "A", orderedQty := 10, lineStatus := .ok } := by
    norm_num [c8Mid, List.find?]
  have h3 : c8Mid.orderSubstitutes.find? (substituteLookupP 0 1 "B") =
      some { orderId := 0, lineId := 1, substituteProductCode := "B", priority := 1, isUsed := false } := by
    norm_num +decide [c8Mid, List.find?, substituteLookupP]
  have h4 : findProduct? c8Mid "B" =
      some { productCode := "B", price := 2 } := by
    norm_num +decide [c8Mid, List.find?, findProduct?, c8Products]
  have h5 : findProduct? c8Mid "A" =
      some { productCode := "A", price := 3/2 } := by
    norm_num +decide [c8Mid, List.find?, findProduct?, c8Products]
  have h6 : ((2:ℚ) - 3/2) * 10 ≠ 0 := by norm_num
  have h := replace_eval h1 h2 h3 h4 h5 h6
  rw [h]
  norm_num +decide [c8Mid, c8Final, replacedLines, usedSubs,
    updateFirst, substituteLookupP, cancelActiveOrderInvoice, activeOrderInvoiceP,
    modInvoice, modItem, regenInvoice, regenItems, regenLineTotals, regenTotal,
    findProduct?, List.find?, List.filter, List.filterMap, vatRate,
    c8Products, c8ModInvoice, c8RegenInvoice, c8CancelledInvoice,
    c8FirstInvoice, c8ModItem, c8RegenItem, c8FirstItem, c8ReplacedLine,
    c8UsedSub, abs, Option.map, List.sum, List.foldr, List.map]

theorem c8_order_invoice_creation_witness :
    (place_order "c" c8Cart (initState c8Products) = .ok c8Mid ∧
      (∀ l ∈ (initState c8Products).orderLines,
        l.orderId ≠ (initState c8Products).nextId) ∧
      (∀ it ∈ (initState c8Products).invoiceItems,
        it.invoiceId ≠ placeInvoiceId (initState c8Products) c8Cart) ∧
      replace_product_with_substitute 0 1 "B" c8Mid = .ok c8Final) ∧
    ((∃ inv ∈ c8Mid.invoices, inv.orderId = some (initState c8Products).nextId ∧
      inv.invoiceType = InvoiceType.order ∧
      inv.status = InvoiceStatus.pending ∧
      inv.totalAmount = orderValue c8Mid (initState c8Products).nextId ∧
      inv.taxAmount = inv.totalAmount * vatRate ∧
      (c8Mid.invoiceItems.filter (fun it => it.invoiceId == inv.invoiceId)).length =
        (c8Mid.orderLines.filter
          (fun l => l.orderId == (initState c8Products).nextId)).length) ∧
    (∃ inv ∈ c8Final.invoices, inv.orderId = some 0 ∧
      inv.invoiceType = InvoiceType.order ∧
      inv.status = InvoiceStatus.pending ∧
      inv.totalAmount = orderValue c8Final 0 ∧
      inv.taxAmount = inv.totalAmount * vatRate)) ∧
    (c8FirstInvoice.totalAmount = 15 ∧ c8FirstInvoice.taxAmount = 18/5 ∧
      c8RegenInvoice.totalAmount = 20 ∧ c8RegenInvoice.taxAmount = 24/5 ∧
      c8ModInvoice.totalAmount = 5) :=
  ⟨⟨c8_place, by simp [initState], by simp [initState], c8_replace⟩,
    c8_order_invoice_creation c8_place (by simp [initState])
      (by simp [initState]) c8_replace,
    by norm_num [c8FirstInvoice, c8RegenInvoice, c8ModInvoice]⟩

end OmniValio
